import Mathlib

/-! # Verification of the repository-analysis agent

The Python sources of the agent (schema validator, citation validator,
verifier, orchestration workflow, analyzer, and the `read_file` tool) are
shallowly embedded below as executable Lean definitions, and the claims of the
specification are settled as theorems about those definitions.

String operations are implemented over `List Char` by structural recursion so
that every definition evaluates inside the kernel. -/

namespace RepoCopilot

/-! ## String helpers -/

/-- A single-quote character, used when rendering Python-style messages. -/
def sq : String := String.singleton (Char.ofNat 39)

/-- Lowercase a string (models Python `str.lower` on ASCII text). -/
def strLower (s : String) : String := String.mk (s.data.map Char.toLower)

/-- Does the list start with the given pattern? -/
def listStarts : List Char → List Char → Bool
  | _, [] => true
  | [], _ :: _ => false
  | a :: s, b :: p => a == b && listStarts s p

/-- Does the list contain the pattern as a contiguous sublist? -/
def listHasSub (s p : List Char) : Bool :=
  listStarts s p ||
    match s with
    | [] => false
    | _ :: rest => listHasSub rest p

/-- Substring test (models Python `sub in s`; the empty string is in everything). -/
def containsSub (s pat : String) : Bool := listHasSub s.data pat.data

/-- String starts-with on the underlying character list. -/
def strStarts (s p : String) : Bool := listStarts s.data p.data

/-- String ends-with on the underlying character list. -/
def strEnds (s p : String) : Bool := listStarts s.data.reverse p.data.reverse

/-- Whitespace characters recognized by Python's `str.strip` / `\s` (ASCII part). -/
def isPySpace (c : Char) : Bool :=
  c == ' ' || c == '\t' || c == '\n' || c == '\x0d' || c == '\x0b' || c == '\x0c'

/-- Models Python `str.strip()` (ASCII whitespace). -/
def strStrip (s : String) : String :=
  String.mk (((s.data.dropWhile isPySpace).reverse.dropWhile isPySpace).reverse)

/-- Join strings with a separator (Python `sep.join`). -/
def strJoin (sep : String) : List String → String
  | [] => ""
  | [x] => x
  | x :: y :: rest => x ++ sep ++ strJoin sep (y :: rest)

/-- Lexicographic comparison of character lists by code point. -/
def charListLe : List Char → List Char → Bool
  | [], _ => true
  | _ :: _, [] => false
  | a :: as, b :: bs => a.toNat < b.toNat || (a == b && charListLe as bs)

/-- String order used to model Python `sorted` on strings. -/
def strLe (a b : String) : Bool := charListLe a.data b.data

/-- Insert into a sorted list of strings. -/
def insertSorted (x : String) : List String → List String
  | [] => [x]
  | y :: rest => if strLe x y then x :: y :: rest else y :: insertSorted x rest

/-- Insertion sort on strings (models Python `sorted`). -/
def sortStrs : List String → List String
  | [] => []
  | x :: rest => insertSorted x (sortStrs rest)

/-- Remove duplicates keeping first occurrences (models iterating a Python set
built from a list, up to ordering, which `sortStrs` then fixes). -/
def dedupStrs (seen : List String) : List String → List String
  | [] => []
  | x :: rest =>
    if seen.contains x then dedupStrs seen rest else x :: dedupStrs (x :: seen) rest

/-- Render a list of strings the way Python prints `sorted(set_of_strings)`. -/
def renderKeys (l : List String) : String :=
  "[" ++ strJoin ", " ((sortStrs (dedupStrs [] l)).map (fun k => sq ++ k ++ sq)) ++ "]"

/-! ## Python values

A universe of Python values as they appear in the agent's outputs: strings,
ints, bools, `None`, lists and (string-keyed) dicts. -/

inductive PyVal where
  | str (s : String)
  | int (n : Int)
  | bool (b : Bool)
  | none
  | list (xs : List PyVal)
  | dict (kvs : List (String × PyVal))

/-- Python `type(x).__name__` for our value universe. -/
def typeName : PyVal → String
  | .str _ => "str"
  | .int _ => "int"
  | .bool _ => "bool"
  | .none => "NoneType"
  | .list _ => "list"
  | .dict _ => "dict"

/-- Python `repr` (lists and dicts abbreviated; only used inside messages). -/
def pyRepr : PyVal → String
  | .str s => sq ++ s ++ sq
  | .int n => toString n
  | .bool b => if b then "True" else "False"
  | .none => "None"
  | .list _ => "[...]"
  | .dict _ => "\x7b...\x7d"

/-- Python `d.get(k)` (default `None`). -/
def pyGetD (kvs : List (String × PyVal)) (k : String) : PyVal :=
  (List.lookup k kvs).getD .none

/-- Python `d.get(k, dflt)`. -/
def pyGetDef (kvs : List (String × PyVal)) (k : String) (dflt : PyVal) : PyVal :=
  (List.lookup k kvs).getD dflt

/-- Python `isinstance(v, str)`. -/
def pyIsStr : PyVal → Bool
  | .str _ => true
  | _ => false

/-- Python `isinstance(v, int)` (bools are ints in Python); yields the value. -/
def pyToInt : PyVal → Option Int
  | .int n => some n
  | .bool b => some (if b then 1 else 0)
  | _ => .none

/-- Python `isinstance(v, (list, dict))`. -/
def isListOrDict : PyVal → Bool
  | .list _ => true
  | .dict _ => true
  | _ => false

/-- Python truthiness for our value universe. -/
def pyTruthy : PyVal → Bool
  | .str s => s != ""
  | .int n => n != 0
  | .bool b => b
  | .none => false
  | .list xs => !xs.isEmpty
  | .dict kvs => !kvs.isEmpty

/-- Python iteration over a value; non-iterable truthy values raise `TypeError`,
modelled as `Except` failure. -/
def pyIter : PyVal → Except Unit (List PyVal)
  | .list xs => .ok xs
  | .str s => .ok (s.data.map (fun c => .str (String.singleton c)))
  | .dict kvs => .ok (kvs.map (fun kv => .str kv.1))
  | _ => .error ()

/-! ## `eval/schema_validate.py` -/

/-- The exact top-level key set required of an agent output. -/
def requiredKeys : List String := ["summary", "high_risk_areas", "confidence"]

/-- The exact key set required of each `high_risk_areas` item. -/
def itemRequiredKeys : List String := ["file_path", "line_start", "line_end", "description"]

/-- Set equality of two key lists (Python `set(a) == set(b)`). -/
def keySetEqb (a b : List String) : Bool :=
  a.all (fun k => b.contains k) && b.all (fun k => a.contains k)

/-- The `high_risk_areas[i]` tag opening every per-item error message. -/
def itemTag (i : Nat) : String := "high_risk_areas[" ++ toString i ++ "]"

/-- The message for a wrongly-typed citation field. -/
def fieldTypeMsg (i : Nat) (field ty : String) (v : PyVal) : String :=
  itemTag i ++ ("." ++ field ++ " must be " ++ ty ++ ", got " ++ typeName v)

/-- Errors contributed by one `high_risk_areas` item
(`validate_output_schema`, per-item loop body). -/
def citationItemErrors (i : Nat) (item : PyVal) : List String :=
  match item with
  | .dict kvs =>
    let actual := kvs.map Prod.fst
    if !keySetEqb actual itemRequiredKeys then
      (if actual.any (fun k => !itemRequiredKeys.contains k) then
        [itemTag i ++ (" has extra fields: " ++
          renderKeys (actual.filter (fun k => !itemRequiredKeys.contains k)))]
      else []) ++
      (if itemRequiredKeys.any (fun k => !actual.contains k) then
        [itemTag i ++ (" missing fields: " ++
          renderKeys (itemRequiredKeys.filter (fun k => !actual.contains k)))]
      else [])
    else
      (if !pyIsStr (pyGetD kvs "file_path") then
        [fieldTypeMsg i "file_path" "str" (pyGetD kvs "file_path")] else []) ++
      (if !(pyToInt (pyGetD kvs "line_start")).isSome then
        [fieldTypeMsg i "line_start" "int" (pyGetD kvs "line_start")] else []) ++
      (if !(pyToInt (pyGetD kvs "line_end")).isSome then
        [fieldTypeMsg i "line_end" "int" (pyGetD kvs "line_end")] else []) ++
      (if !pyIsStr (pyGetD kvs "description") then
        [fieldTypeMsg i "description" "str" (pyGetD kvs "description")] else []) ++
      kvs.filterMap (fun kv =>
        if isListOrDict kv.2 then
          some (itemTag i ++ ("." ++ kv.1 ++
            " contains nested structure (" ++ typeName kv.2 ++ "), only primitives allowed"))
        else Option.none)
  | _ => [itemTag i ++ (" must be dict, got " ++ typeName item)]

/-- Errors contributed by all `high_risk_areas` items starting at index `i`. -/
def citationErrorsFrom (i : Nat) : List PyVal → List String
  | [] => []
  | item :: rest => citationItemErrors i item ++ citationErrorsFrom (i + 1) rest

/-- Is the value one of the three allowed confidence strings
(Python `confidence in ("low", "medium", "high")`)? -/
def confOKb : PyVal → Bool
  | .str s => s == "low" || s == "medium" || s == "high"
  | _ => false

/-- Embedding of `validate_output_schema` from `eval/schema_validate.py`. -/
def validateOutputSchema (output : PyVal) : Bool × List String :=
  match output with
  | .dict kvs =>
    let actual := kvs.map Prod.fst
    if !keySetEqb actual requiredKeys then
      (false,
        (if actual.any (fun k => !requiredKeys.contains k) then
          ["Extra fields not allowed: " ++
            renderKeys (actual.filter (fun k => !requiredKeys.contains k))]
        else []) ++
        (if requiredKeys.any (fun k => !actual.contains k) then
          ["Missing required fields: " ++
            renderKeys (requiredKeys.filter (fun k => !actual.contains k))]
        else []))
    else if !pyIsStr (pyGetD kvs "summary") then
      (false, ["summary must be str, got " ++ typeName (pyGetD kvs "summary")])
    else if !confOKb (pyGetD kvs "confidence") then
      (false, ["confidence must be " ++ sq ++ "low" ++ sq ++ ", " ++ sq ++ "medium" ++ sq ++
        ", or " ++ sq ++ "high" ++ sq ++ ", got " ++ pyRepr (pyGetD kvs "confidence")])
    else
      match pyGetD kvs "high_risk_areas" with
      | .list items =>
        let errs := citationErrorsFrom 0 items
        if errs.isEmpty then (true, []) else (false, errs)
      | v => (false, ["high_risk_areas must be list, got " ++ typeName v])
  | _ => (false, ["Output must be dict, got " ++ typeName output])

/-! ### The schema property as the claims state it -/

/-- Claim-side predicate: one citation item has exactly the four required keys,
`file_path`/`description` strings, `line_start`/`line_end` ints, and no
list/dict value. -/
def specCitationItemOK (item : PyVal) : Bool :=
  match item with
  | .dict kvs =>
    keySetEqb (kvs.map Prod.fst) itemRequiredKeys &&
    pyIsStr (pyGetD kvs "file_path") &&
    (pyToInt (pyGetD kvs "line_start")).isSome &&
    (pyToInt (pyGetD kvs "line_end")).isSome &&
    pyIsStr (pyGetD kvs "description") &&
    kvs.all (fun kv => !isListOrDict kv.2)
  | _ => false

/-- Claim-side predicate: the output is a mapping whose key set is exactly
`{summary, high_risk_areas, confidence}`, `summary` is a string, `confidence`
is one of low/medium/high, `high_risk_areas` is a list and every element
satisfies `specCitationItemOK`. -/
def specSchemaOK (output : PyVal) : Bool :=
  match output with
  | .dict kvs =>
    keySetEqb (kvs.map Prod.fst) requiredKeys &&
    pyIsStr (pyGetD kvs "summary") &&
    confOKb (pyGetD kvs "confidence") &&
    (match pyGetD kvs "high_risk_areas" with
     | .list items => items.all specCitationItemOK
     | _ => false)
  | _ => false

example : (validateOutputSchema (.dict [("summary", .str "ok"),
  ("high_risk_areas", .list []), ("confidence", .str "high")])).1 = true := by decide

example : (validateOutputSchema (.dict [("summary", .int 1),
  ("high_risk_areas", .list []), ("confidence", .str "bogus")])).2.length = 1 := by decide

example : specSchemaOK (.dict [("summary", .str "ok"),
  ("high_risk_areas", .list [.dict [("file_path", .str "a.py"), ("line_start", .int 1),
    ("line_end", .int 2), ("description", .str "d")]]), ("confidence", .str "low")]) = true := by
  decide

/-! ## Evidence items

Entries of the run state's `retrieved_files` and `tool_calls` logs are Python
dicts; the fields the validators and the analyzer read are modelled as typed
fields (`Option` encodes an absent key / `None` value). -/

structure EvItem where
  tool : Option String
  name : Option String
  path : Option String
  lines : Option (List String)
  files : Option (List String)
  isBinary : Bool
  error : Option String
  resultStatus : Option String

/-- An evidence item with every field absent. -/
def emptyEvItem : EvItem :=
  { tool := .none, name := .none, path := .none, lines := .none, files := .none,
    isBinary := false, error := .none, resultStatus := .none }

/-- A `read_file` evidence item carrying line-numbered content. -/
def readEvItem (p : String) (ls : List String) : EvItem :=
  { emptyEvItem with tool := some "read_file", path := some p, lines := some ls }

/-! ## `eval/citation_validate.py` -/

/-- Parse a `"N| text"` evidence line: the regex `^\s*(\d+)\|\s*(.*)$`. -/
def parseLineNum (s : String) : Option (Int × String) :=
  let cs := s.data.dropWhile isPySpace
  let digits := cs.takeWhile Char.isDigit
  let rest := cs.dropWhile Char.isDigit
  if digits.isEmpty then .none
  else
    match rest with
    | '|' :: rest2 =>
      some (Int.ofNat (digits.foldl (fun n c => n * 10 + (c.toNat - 48)) 0),
        String.mk (rest2.dropWhile isPySpace))
    | _ => .none

/-- A per-file evidence map: line number to line text (lookup-first models the
last-write-wins behaviour of the Python dict because entries are consed). -/
abbrev LineMap := List (Int × String)

/-- The evidence map: file path to per-file line map. -/
abbrev EvMap := List (String × LineMap)

/-- Build one file's `\x7bline_num: line_text\x7d` dict from its raw lines. -/
def buildLineData (lines : List String) : LineMap :=
  lines.foldl (fun acc raw =>
    match parseLineNum raw with
    | some nt => nt :: acc
    | .none => acc) []

/-- Build the evidence map `file_path -> \x7bline_num: line_text\x7d` from
`read_file` results (only non-empty line data is stored). -/
def buildEvidenceMap (items : List EvItem) : EvMap :=
  items.foldl (fun em item =>
    if item.tool == some "read_file" then
      let path := strStrip (item.path.getD "")
      if path == "" then em
      else
        let ld := buildLineData (item.lines.getD [])
        if ld.isEmpty then em else (path, ld) :: em
    else em) []

/-- The `validation_rules` flags read by `validate_citations`. -/
structure CiteRules where
  rejectNegative : Bool
  rejectZero : Bool

/-- No configured rules (the Verifier's invocation). -/
def noCiteRules : CiteRules := { rejectNegative := false, rejectZero := false }

/-- A `content_validation` assertion: "file F, line L, must_not_contain_text T". -/
structure CiteAssertion where
  file : String
  mustNotContainText : String
  line : Int

/-- Python `range(a, b + 1)` over ints, as a list. -/
def intRange (a b : Int) : List Int :=
  (List.range (b + 1 - a).toNat).map (fun k => a + Int.ofNat k)

/-- Smallest key of a line map (only used inside diagnostic messages). -/
def lineMapMin : LineMap → Int
  | [] => 0
  | (k, _) :: rest => rest.foldl (fun m p => min m p.1) k

/-- Largest key of a line map (only used inside diagnostic messages). -/
def lineMapMax : LineMap → Int
  | [] => 0
  | (k, _) :: rest => rest.foldl (fun m p => max m p.1) k

/-- One iteration of the citation loop: errors contributed by citation `i`
given the duplicates seen so far, plus the updated seen set. -/
def citeCheck (rules : CiteRules) (em : EvMap) (i : Nat)
    (seen : List (String × Int × Int)) (area : PyVal) :
    List String × List (String × Int × Int) :=
  match area with
  | .dict kvs =>
    match pyGetD kvs "file_path" with
    | .str fp =>
      match pyToInt (pyGetD kvs "line_start") with
      | some ls =>
        match pyToInt (pyGetD kvs "line_end") with
        | some le =>
          if (rules.rejectNegative || rules.rejectZero) && (ls < 1 || le < 1) then
            (["Citation " ++ toString i ++ ": invalid line number (line_start=" ++
              toString ls ++ ", line_end=" ++ toString le ++
              "); negative or zero line numbers rejected"], seen)
          else if seen.contains (fp, ls, le) then
            (["Duplicate citation: " ++ fp ++ " lines " ++ toString ls ++ "-" ++ toString le],
              seen)
          else
            let seen2 := seen ++ [(fp, ls, le)]
            if ls > le then
              (["Citation " ++ toString i ++ ": line_start (" ++ toString ls ++
                ") > line_end (" ++ toString le ++ ")"], seen2)
            else
              match List.lookup fp em with
              | .none =>
                (["Citation " ++ toString i ++ ": file " ++ sq ++ fp ++ sq ++
                  " not found in retrieved evidence"], seen2)
              | some lm =>
                if lm.isEmpty then
                  (["Citation " ++ toString i ++ ": file " ++ sq ++ fp ++ sq ++
                    " has no readable lines in evidence"], seen2)
                else
                  match (intRange ls le).find? (fun n => (List.lookup n lm).isNone) with
                  | some n =>
                    (["Citation " ++ toString i ++ ": line " ++ toString n ++ " in " ++
                      sq ++ fp ++ sq ++ " not found in evidence (evidence has lines " ++
                      toString (lineMapMin lm) ++ "-" ++ toString (lineMapMax lm) ++ ")"],
                      seen2)
                  | .none => ([], seen2)
        | .none => (["Citation " ++ toString i ++ ": line_end is not an int"], seen)
      | .none => (["Citation " ++ toString i ++ ": line_start is not an int"], seen)
    | _ => (["Citation " ++ toString i ++ ": file_path is not a string"], seen)
  | _ => (["Citation " ++ toString i ++ " is not a dict"], seen)

/-- The citation loop of `validate_citations`. -/
def citeLoop (rules : CiteRules) (em : EvMap) (i : Nat)
    (seen : List (String × Int × Int)) : List PyVal → List String
  | [] => []
  | area :: rest =>
    let r := citeCheck rules em i seen area
    r.1 ++ citeLoop rules em (i + 1) r.2 rest

/-- Look up the recorded text of line `l` of file `f` in the evidence map. -/
def lineLookup (em : EvMap) (f : String) (l : Int) : Option String :=
  match List.lookup f em with
  | some lm => List.lookup l lm
  | .none => .none

/-- The diagnostic emitted by the content-aware block. -/
def contentMsg (a : CiteAssertion) : String :=
  "Citation covers line " ++ toString a.line ++ " in " ++ sq ++ a.file ++ sq ++
  " which does not contain expected text for the cited function"

/-- The content-aware block of `validate_citations`: for each assertion and
each citation whose range covers the asserted line, the recorded text of that
line is checked and a diagnostic is emitted when the asserted text is absent
from it (case-insensitively). -/
def contentErrors (em : EvMap) (areas : List PyVal) (assertions : List CiteAssertion) :
    List String :=
  assertions.flatMap (fun a =>
    if a.file != "" && a.mustNotContainText != "" && a.line != 0 then
      areas.flatMap (fun area =>
        match area with
        | .dict kvs =>
          match pyGetD kvs "file_path", pyToInt (pyGetD kvs "line_start"),
              pyToInt (pyGetD kvs "line_end") with
          | .str fp, some ls, some le =>
            if fp == a.file && ls ≤ a.line && a.line ≤ le then
              match lineLookup em a.file a.line with
              | some actualText =>
                if !containsSub (strLower actualText) (strLower a.mustNotContainText) then
                  [contentMsg a]
                else []
              | .none => []
            else []
          | _, _, _ => []
        | _ => [])
    else [])

/-- Embedding of `validate_citations` from `eval/citation_validate.py`.
Iterating a truthy non-iterable `high_risk_areas` raises, modelled as
`Except` failure; `repoPath` is accepted and unused exactly as in the source. -/
def validateCitations (output : PyVal) (retrievedFiles : List EvItem) (repoPath : String)
    (mode : Option String) (rules : CiteRules)
    (contentValidation : Option (List CiteAssertion)) :
    Except Unit (Bool × List String) :=
  match output with
  | .dict kvs =>
    let hraVal := pyGetDef kvs "high_risk_areas" (.list [])
    if !pyTruthy hraVal then .ok (true, [])
    else
      match pyIter hraVal with
      | .error e => .error e
      | .ok areas =>
        let em := buildEvidenceMap retrievedFiles
        let baseErrs := citeLoop rules em 0 [] areas
        let cErrs :=
          match mode, contentValidation with
          | some m, some assertions =>
            if m == "content_aware" then contentErrors em areas assertions else []
          | _, _ => []
        let errs := baseErrs ++ cErrs
        .ok (errs.isEmpty, errs)
  | _ => .ok (false, ["Output is not a dict, cannot validate citations"])

/-! ### The citation-grounding property as the claims state it -/

/-- Claim-side predicate for one citation, given the triples of earlier
citations: well-typed, not a duplicate, ordered bounds, file in evidence, and
every line of the cited range present in that file's retrieved lines. -/
def specCitationOK (em : EvMap) (seen : List (String × Int × Int)) (area : PyVal) : Bool :=
  match area with
  | .dict kvs =>
    match pyGetD kvs "file_path", pyToInt (pyGetD kvs "line_start"),
        pyToInt (pyGetD kvs "line_end") with
    | .str fp, some ls, some le =>
      !seen.contains (fp, ls, le) && ls ≤ le &&
      (match List.lookup fp em with
       | some lm => (intRange ls le).all (fun n => (List.lookup n lm).isSome)
       | .none => false)
    | _, _, _ => false
  | _ => false

/-- The well-typed `(file_path, line_start, line_end)` triple of a citation. -/
def tripleOf (area : PyVal) : Option (String × Int × Int) :=
  match area with
  | .dict kvs =>
    match pyGetD kvs "file_path", pyToInt (pyGetD kvs "line_start"),
        pyToInt (pyGetD kvs "line_end") with
    | .str fp, some ls, some le => some (fp, ls, le)
    | _, _, _ => .none
  | _ => .none

/-- Claim-side predicate for a citation list: every citation passes
`specCitationOK` against the triples of the earlier citations. -/
def specAllCitationsOK (em : EvMap) (seen : List (String × Int × Int)) :
    List PyVal → Bool
  | [] => true
  | area :: rest =>
    specCitationOK em seen area &&
    specAllCitationsOK em
      (match tripleOf area with
       | some t => seen ++ [t]
       | .none => seen) rest

example :
    validateCitations
      (.dict [("summary", .str "s"), ("high_risk_areas", .list [.dict
        [("file_path", .str "a.py"), ("line_start", .int 1), ("line_end", .int 2),
         ("description", .str "d")]]), ("confidence", .str "low")])
      [readEvItem "a.py" ["1| x", "2| y"]]
      "repo" .none noCiteRules .none = .ok (true, []) := rfl

example :
    validateCitations
      (.dict [("high_risk_areas", .list [.dict
        [("file_path", .str "a.py"), ("line_start", .int 1), ("line_end", .int 3),
         ("description", .str "d")]])])
      [readEvItem "a.py" ["1| x", "2| y"]]
      "repo" .none noCiteRules .none
      = .ok (false, ["Citation 0: line 3 in " ++ sq ++ "a.py" ++ sq ++
          " not found in evidence (evidence has lines 1-2)"]) := rfl

/-! ## `agent/state.py` -/

/-- The run state threaded through the workflow (`AgentState` dataclass). -/
structure AgentState where
  task : String
  repoPath : String
  plan : List String
  toolCalls : List EvItem
  retrievedFiles : List EvItem
  output : PyVal
  schemaValid : Bool
  citationsValid : Bool
  schemaErrors : List String
  citationErrors : List String
  llmAttempts : Nat
  maxLlmAttempts : Nat
  lastValidationFeedback : Option String
  routeDecision : String

/-- A fresh run state for a task (the dataclass's field defaults;
`max_llm_attempts` defaults to 2). -/
def initialState (task repoPath : String) : AgentState :=
  { task := task, repoPath := repoPath, plan := [], toolCalls := [],
    retrievedFiles := [], output := .dict [], schemaValid := false,
    citationsValid := false, schemaErrors := [], citationErrors := [],
    llmAttempts := 0, maxLlmAttempts := 2, lastValidationFeedback := .none,
    routeDecision := "call_llm" }

/-! ## `agent/verifier.py` -/

/-- The path patterns scanned for in the task
(`_is_path_traversal_task`; each regex is a literal substring). -/
def traversalPatterns : List String :=
  ["../..", "/etc/", "/usr/", "/var/", "/tmp/", "/home/", "\\windows\\"]

/-- Does the (lowercased) task reference paths outside the repository? -/
def isPathTraversalTask (task : String) : Bool :=
  traversalPatterns.any (fun pat => containsSub (strLower task) pat)

/-- The security keywords scanned for in `read_file` errors by the Verifier. -/
def securityKeywords : List String :=
  ["symlink", "path traversal", "escapes repo", "symlink not allowed"]

/-- `x.get("tool") or x.get("name")` on a log entry. -/
def evToolOrName (x : EvItem) : Option String :=
  match x.tool with
  | some t => if t == "" then x.name else some t
  | .none => x.name

/-- `str(x.get("error", "") or "")` on a log entry. -/
def evErrStr (x : EvItem) : String := x.error.getD ""

/-- Python `os.path.basename` for POSIX paths. -/
def basename (s : String) : String :=
  String.mk ((s.data.reverse.takeWhile (fun c => c != '/')).reverse)

/-- A fold applying one family of security-override rules: for every item that
meets the rule's condition, citations are invalidated and one diagnostic is
appended — but only while citations are still valid. -/
def fireFold {α : Type} (cond : α → Bool) (msg : α → String)
    (items : List α) (st : Bool × List String) : Bool × List String :=
  items.foldl (fun st x =>
    if cond x then
      if st.1 then (false, st.2 ++ [msg x]) else st
    else st) st

/-- Condition of the first override rule: a `read_file` log entry whose error
text contains a security keyword. -/
def secErrCond (x : EvItem) : Bool :=
  evToolOrName x == some "read_file" &&
    securityKeywords.any (fun kw => containsSub (strLower (evErrStr x)) kw)

/-- Diagnostic of the first override rule. -/
def secErrMsg (x : EvItem) : String :=
  "Security error for " ++ sq ++ x.path.getD "unknown" ++ sq ++ ": " ++ evErrStr x

/-- Condition of the third override rule: a binary `read_file` result whose
path (or basename) is mentioned by the task. -/
def binaryTargetCond (task : String) (x : EvItem) : Bool :=
  x.tool == some "read_file" && x.isBinary &&
    (containsSub (strLower task) (strLower (x.path.getD "")) ||
     containsSub (strLower task) (basename (strLower (x.path.getD ""))))

/-- Diagnostic of the third override rule. -/
def binaryTargetMsg (x : EvItem) : String :=
  "Task targets binary file " ++ sq ++ x.path.getD "" ++ sq ++
    "; citations cannot be validated."

/-- Diagnostic of the second override rule (path-traversal task). -/
def traversalMsg : String :=
  "Task references paths outside repository; citations cannot be validated."

/-- The `---- Additional invalidation rules ----` block of `verify_output`:
security errors in both logs, then the path-traversal task check, then the
task-targeted binary file check. -/
def applyOverrides (task : String) (retrievedFiles toolCalls : List EvItem)
    (st : Bool × List String) : Bool × List String :=
  let st := fireFold secErrCond secErrMsg (retrievedFiles ++ toolCalls) st
  let st :=
    if isPathTraversalTask task then
      if st.1 then (false, st.2 ++ [traversalMsg]) else st
    else st
  fireFold (binaryTargetCond task) binaryTargetMsg retrievedFiles st

/-- The `last_validation_feedback` string built by `verify_output`. -/
def buildFeedback (schemaValid : Bool) (schemaErrors : List String)
    (citationsValid : Bool) (citationErrors : List String) : Option String :=
  if !schemaValid || !citationsValid then
    some (strJoin "\n"
      ((if !schemaValid then ["SCHEMA ERRORS: " ++ strJoin "; " schemaErrors] else []) ++
       (if !citationsValid then ["CITATION ERRORS: " ++ strJoin "; " citationErrors] else [])))
  else .none

/-- The validation computation of `verify_output`: it reads only the task, the
repo path, the output and the two logs, and produces the schema verdict and
the (override-adjusted) citation verdict. -/
def verifyCore (task repoPath : String) (output : PyVal)
    (retrievedFiles toolCalls : List EvItem) :
    Except Unit ((Bool × List String) × (Bool × List String)) :=
  let schemaRes := validateOutputSchema output
  match validateCitations output retrievedFiles repoPath .none noCiteRules .none with
  | .error e => .error e
  | .ok citRes => .ok (schemaRes, applyOverrides task retrievedFiles toolCalls citRes)

/-- Embedding of `verify_output` from `agent/verifier.py`: schema validation,
citation validation, the security-override rules, then retry feedback. The
exceptional case is the `TypeError` propagated from `validate_citations`. -/
def verifyOutput (s : AgentState) : Except Unit AgentState :=
  match verifyCore s.task s.repoPath s.output s.retrievedFiles s.toolCalls with
  | .error e => .error e
  | .ok p =>
    .ok { s with
      schemaValid := p.1.1
      schemaErrors := p.1.2
      citationsValid := p.2.1
      citationErrors := p.2.2
      lastValidationFeedback := buildFeedback p.1.1 p.1.2 p.2.1 p.2.2 }

/-! ## `agent/langgraph_workflow.py` -/

/-- `node_summarize`: increments the attempt counter and invokes the model
(an opaque oracle from the state — task, evidence, context notes and retry
feedback are all part of the state it reads). -/
def nodeSummarize (llm : AgentState → PyVal) (s : AgentState) : AgentState :=
  let s1 := { s with llmAttempts := s.llmAttempts + 1 }
  { s1 with output := llm s1 }

/-- The non-retryable keywords of `should_retry`. -/
def nonRetryableKeywords : List String :=
  ["binary", "symlink", "path traversal", "outside repository"]

/-- Does some validation error contain a non-retryable keyword? -/
def hasNonRetryableError (s : AgentState) : Bool :=
  (s.schemaErrors ++ s.citationErrors).any (fun err =>
    nonRetryableKeywords.any (fun kw => containsSub (strLower err) kw))

/-- `should_retry`: the conditional edge after `verify`. Returns the route and
the (possibly reset) state. -/
def shouldRetry (s : AgentState) : String × AgentState :=
  if s.schemaValid && s.citationsValid then ("end", s)
  else if s.maxLlmAttempts ≤ s.llmAttempts then ("end", s)
  else if hasNonRetryableError s then ("end", s)
  else
    ("retry",
      { s with
          schemaValid := false
          citationsValid := false
          schemaErrors := []
          citationErrors := [] })

/-- Outcome of the summarize/verify retry loop. -/
inductive LoopResult where
  | finished (s : AgentState)
  | crashed (s : AgentState)

/-- The run state carried by a loop outcome. -/
def LoopResult.state : LoopResult → AgentState
  | .finished s => s
  | .crashed s => s

/-- The `summarize → verify → should_retry` cycle of the graph, with explicit
fuel (`none` = fuel ran out; never happens with fuel covering the retry
budget). `crashed` records the state at an uncaught exception. -/
def summarizeVerifyLoop (llm : AgentState → PyVal) :
    Nat → AgentState → Option LoopResult
  | 0, _ => .none
  | fuel + 1, s =>
    let s1 := nodeSummarize llm s
    match verifyOutput s1 with
    | .error _ => some (.crashed s1)
    | .ok s2 =>
      let r := shouldRetry s2
      if r.1 == "end" then some (.finished r.2)
      else summarizeVerifyLoop llm fuel r.2

/-! ## `agent/analyzer.py` -/

/-- `_all_tools_failed`: an empty log counts as failure, otherwise every call
must have a `result_status` different from `"success"`. -/
def allToolsFailed (s : AgentState) : Bool :=
  if s.toolCalls.isEmpty then true
  else s.toolCalls.all (fun tc => tc.resultStatus != some "success")

/-- `_get_listed_files`: the file list of the first `list_files` evidence item
whose `files` field is a list. -/
def getListedFiles (items : List EvItem) : List String :=
  match items.find? (fun x => x.tool == some "list_files" && x.files.isSome) with
  | some x => x.files.getD []
  | .none => []

/-- `_get_binary_files`: paths of `read_file` results flagged binary. -/
def getBinaryFiles (items : List EvItem) : List String :=
  items.filterMap (fun x =>
    if x.tool == some "read_file" && x.isBinary then some (x.path.getD "") else Option.none)

/-- `_get_error_files`: paths of non-binary `read_file` results with an error. -/
def getErrorFiles (items : List EvItem) : List String :=
  items.filterMap (fun x =>
    if x.tool == some "read_file" && evErrStr x != "" && !x.isBinary then
      some (x.path.getD "")
    else Option.none)

/-- `_task_targets_file`: the task mentions the file path or its basename. -/
def taskTargetsFile (task filename : String) : Bool :=
  containsSub (strLower task) (strLower filename) ||
    containsSub (strLower task) (basename (strLower filename))

/-- `_fallback_output`: a schema-compliant output with no citations. -/
def fallbackOutput (summary conf : String) : PyVal :=
  .dict [("summary", .str summary), ("high_risk_areas", .list []),
    ("confidence", .str conf)]

/-- Character class of the task-filename pattern `[a-zA-Z0-9_/\\.\-]`. -/
def isTaskFileChar (c : Char) : Bool :=
  (c.toNat ≥ 97 && c.toNat ≤ 122) || (c.toNat ≥ 65 && c.toNat ≤ 90) ||
  (c.toNat ≥ 48 && c.toNat ≤ 57) || c == '_' || c == '/' || c == '\\' ||
  c == '.' || c == '-'

/-- Word characters (`\w`) for the task-filename pattern. -/
def isWordChar (c : Char) : Bool :=
  (c.toNat ≥ 97 && c.toNat ≤ 122) || (c.toNat ≥ 65 && c.toNat ≤ 90) ||
  (c.toNat ≥ 48 && c.toNat ≤ 57) || c == '_'

/-- Index (from the right) of the last viable dot of a filename run: a `.` at
position ≥ 1 followed by a word character. Returns the index of that dot. -/
def lastViableDot (run : List Char) : Option Nat :=
  let idxs := (List.range run.length).filter (fun i =>
    1 ≤ i && run.getD i ' ' == '.' && isWordChar (run.getD (i + 1) ' '))
  idxs.getLast?

/-- One regex match of `[a-zA-Z0-9_/\\.\-]+\.\w\x7b1,5\x7d` inside a maximal
run of pattern characters: everything up to the last viable dot plus at most
five following word characters. Returns the match and the rest of the run. -/
def matchInRun (run : List Char) : Option (String × List Char) :=
  match lastViableDot run with
  | some d =>
    let tail := (run.drop (d + 1)).takeWhile isWordChar
    let w := min 5 tail.length
    some (String.mk (run.take (d + 1 + w)), run.drop (d + 1 + w))
  | .none => .none

/-- `re.findall` of the task-filename pattern, by fuel over the input length. -/
def findTaskFilesAux : Nat → List Char → List String
  | 0, _ => []
  | _ + 1, [] => []
  | fuel + 1, c :: rest =>
    if isTaskFileChar c then
      let run := (c :: rest).takeWhile isTaskFileChar
      let after := (c :: rest).dropWhile isTaskFileChar
      match matchInRun run with
      | some (m, runRest) => m :: findTaskFilesAux fuel (runRest ++ after)
      | .none => findTaskFilesAux fuel after
    else findTaskFilesAux fuel rest

/-- Filenames mentioned by the task (`re.findall` in `_task_mentions_missing_file`). -/
def findTaskFiles (task : String) : List String :=
  findTaskFilesAux task.data.length task.data

/-- Models Python `str.replace("\\", "/")` (a single-character replacement). -/
def backslashToSlash (s : String) : String :=
  String.mk (s.data.map (fun c => if c == '\\' then '/' else c))

/-- Models Python `str.strip("./")`. -/
def stripDotSlash (s : String) : String :=
  let isDS := fun (c : Char) => c == '.' || c == '/'
  String.mk (((s.data.dropWhile isDS).reverse.dropWhile isDS).reverse)

/-- `_task_mentions_missing_file`: the first task-mentioned filename that is
not among the listed files (by normalized equality or basename suffix). -/
def taskMentionsMissingFile (task : String) (listedFiles : List String) : Option String :=
  let listedLower := listedFiles.map (fun f => backslashToSlash (strLower f))
  (findTaskFiles task).find? (fun tf =>
    let tfNorm := stripDotSlash (backslashToSlash (strLower tf))
    tfNorm != "" && !listedLower.contains tfNorm &&
      !listedFiles.any (fun f => strEnds (strLower f) (basename tfNorm)))

/-- Is a `read_file` evidence item readable (route 5 of the analyzer)? -/
def isReadableFile (x : EvItem) : Bool :=
  x.tool == some "read_file" && !x.isBinary && evErrStr x == "" &&
    !(x.lines.getD []).isEmpty

/-- Embedding of `analyze_evidence` from `agent/analyzer.py`: the six routes,
in priority order. -/
def analyzeEvidence (s : AgentState) : AgentState :=
  let listedFiles := getListedFiles s.retrievedFiles
  let binaryFiles := getBinaryFiles s.retrievedFiles
  let errorFiles := getErrorFiles s.retrievedFiles
  if allToolsFailed s then
    { s with
        output := .dict [("error", .str "Agent failed: all tool operations failed."),
          ("summary", .str "Cannot analyze: all tool operations failed.")]
        routeDecision := "error" }
  else if isPathTraversalTask s.task then
    { s with
        output := fallbackOutput
          ("Cannot analyze: the requested path appears to be outside repository boundaries. This is a path traversal security issue. Only files within the repository can be analyzed.")
          "high"
        routeDecision := "skip_llm" }
  else if listedFiles.isEmpty then
    { s with
        output := fallbackOutput "Repository is empty, no files to analyze." "high"
        routeDecision := "skip_llm" }
  else
    match binaryFiles.find? (fun bf => taskTargetsFile s.task bf) with
    | some bf =>
      { s with
          output := fallbackOutput
            (bf ++ " is a binary file and cannot analyze its contents as text. Binary files require specialized tools for inspection.")
            "high"
          routeDecision := "skip_llm" }
    | .none =>
      if !s.retrievedFiles.any isReadableFile then
        let failed := if errorFiles.isEmpty then "all files" else strJoin ", " errorFiles
        { s with
            output := fallbackOutput
              ("Cannot analyze: all file reads failed (" ++ failed ++ ").") "low"
            routeDecision := "skip_llm" }
      else
        let missingNotes :=
          match taskMentionsMissingFile s.task listedFiles with
          | some missing =>
            ["MISSING FILE: " ++ missing ++ " not found. " ++ missing ++
              " is not available for analysis."]
          | .none => []
        let contextNotes := missingNotes ++
          binaryFiles.map (fun bf => "NOTE: " ++ bf ++ " is a binary file") ++
          errorFiles.map (fun ef => "NOTE: " ++ ef ++ " could not be read (error)")
        { s with
            output := .dict [("_context_notes", .list (contextNotes.map .str))]
            routeDecision := "call_llm" }

/-- `route_after_analyze`: the conditional edge after the analyze node. -/
def routeAfterAnalyze (s : AgentState) : String :=
  if s.routeDecision == "error" then "handle_error"
  else if s.routeDecision == "skip_llm" then "finalize"
  else "summarize"

/-! ## `tools/read_file.py`

The file system (symlink detection, `realpath`, existence, file contents) is
an oracle the tool queries; path arithmetic (`normpath`, `join`, `splitext`)
is implemented for POSIX paths as used on the target platform. -/

/-- The file-system oracle seen by `read_file`. -/
structure FS where
  islink : String → Bool
  realpath : String → String
  isfile : String → Bool
  content : String → String

/-- The result record of `read_file` (`ReadFileResult` dataclass). -/
structure ReadFileResult where
  repo_path : String
  path : String
  lines : List String
  total_lines : Nat
  truncated : Bool
  is_binary : Bool
  error : Option String

/-- The exceptions raised by `read_file`: `ValueError` for security rejections
and `FileNotFoundError` for missing files. -/
inductive ReadError where
  | security (msg : String)
  | notFound (msg : String)

/-- The extension allow-list `TEXT_EXTENSIONS`. -/
def TEXT_EXTENSIONS : List String :=
  [".py", ".pyi", ".pyx",
   ".js", ".jsx", ".ts", ".tsx", ".mjs", ".cjs",
   ".html", ".htm", ".css", ".scss", ".sass", ".less", ".svg",
   ".c", ".h", ".cpp", ".hpp", ".cc", ".cxx", ".cs",
   ".java", ".kt", ".kts", ".scala", ".groovy",
   ".go", ".rs", ".rb", ".php", ".swift", ".m", ".mm",
   ".r", ".R", ".jl", ".lua", ".pl", ".pm", ".ex", ".exs",
   ".hs", ".erl", ".clj", ".dart", ".v", ".zig",
   ".sh", ".bash", ".zsh", ".fish", ".bat", ".cmd", ".ps1",
   ".json", ".yaml", ".yml", ".toml", ".ini", ".cfg", ".conf",
   ".xml", ".env", ".properties", ".gradle",
   ".md", ".txt", ".rst", ".csv", ".tsv", ".log",
   ".sql",
   ".dockerfile",
   ".graphql", ".proto", ".tf", ".hcl"]

/-- Split a character list on a separator character. -/
def splitChar (sep : Char) : List Char → List (List Char)
  | [] => [[]]
  | c :: rest =>
    let r := splitChar sep rest
    if c == sep then [] :: r
    else
      match r with
      | g :: gs => (c :: g) :: gs
      | [] => [[c]]

/-- Python `os.path.isabs` for POSIX paths. -/
def isAbs (p : String) : Bool := strStarts p "/"

/-- Python `os.path.normpath` for POSIX paths. -/
def normpath (p : String) : String :=
  if p == "" then "."
  else
    let slashes : Nat :=
      if strStarts p "//" && !strStarts p "///" then 2
      else if strStarts p "/" then 1 else 0
    let comps := (splitChar '/' p.data).map String.mk
    let newComps := comps.foldl (fun acc comp =>
      if comp == "" || comp == "." then acc
      else if comp != ".." || (slashes == 0 && acc.isEmpty) ||
          acc.getLast? == some ".." then
        acc ++ [comp]
      else acc.dropLast) ([] : List String)
    let body := strJoin "/" newComps
    let res := String.mk (List.replicate slashes '/') ++ body
    if res == "" then "." else res

/-- Python `os.path.join` for POSIX paths (two components). -/
def osJoin (a b : String) : String :=
  if strStarts b "/" then b
  else if a == "" || strEnds a "/" then a ++ b
  else a ++ "/" ++ b

/-- The extension part of Python `os.path.splitext`: from the last dot of the
basename, provided a non-dot character precedes it within the basename. -/
def splitextExt (p : String) : String :=
  let b := (basename p).data
  let idxs := (List.range b.length).filter (fun i => b.getD i ' ' == '.')
  match idxs.getLast? with
  | some i =>
    if (b.take i).any (fun c => c != '.') then String.mk (b.drop i) else ""
  | .none => ""

/-- Python `str.splitlines` (newline, carriage return, CR-LF, and the ASCII
vertical-tab and form-feed terminators). -/
def splitlinesAux : List Char → List Char → List String
  | [], cur => if cur.isEmpty then [] else [String.mk cur.reverse]
  | '\x0d' :: '\n' :: rest, cur => String.mk cur.reverse :: splitlinesAux rest []
  | c :: rest, cur =>
    if c == '\n' || c == '\x0d' || c == '\x0b' || c == '\x0c' then
      String.mk cur.reverse :: splitlinesAux rest []
    else splitlinesAux rest (c :: cur)

/-- Python `str.splitlines` on a string. -/
def splitlines (s : String) : List String := splitlinesAux s.data []

/-- Number lines as `"N| text"` starting at line number `start`. -/
def numberLines (start : Int) : List String → List String
  | [] => []
  | l :: rest => (toString start ++ "| " ++ l) :: numberLines (start + 1) rest

/-- Is the realpath of the resolved file inside the repository realpath? -/
def realpathWithin (repoReal fullReal : String) : Bool :=
  fullReal == repoReal || strStarts fullReal (repoReal ++ "/")

/-- Embedding of `read_file` from `tools/read_file.py`: traversal, symlink and
realpath-escape rejection; binary marker for extensions outside the allow
list; otherwise truncated, line-numbered text with optional chunking. -/
def readFile (fs : FS) (repoPath relPath : String) (maxLines maxChars : Nat)
    (allowedExtensions : Option (List String)) (lineStart lineEnd : Option Int) :
    Except ReadError ReadFileResult :=
  let allowed := allowedExtensions.getD TEXT_EXTENSIONS
  let norm := normpath relPath
  if strStarts norm ".." || isAbs norm then
    .error (.security ("Invalid rel_path (path traversal blocked): " ++ relPath))
  else
    let fullPath := osJoin repoPath norm
    if fs.islink fullPath then
      .error (.security ("Symlink not allowed: " ++ relPath))
    else
      let repoReal := fs.realpath repoPath
      let fullReal := fs.realpath fullPath
      if !realpathWithin repoReal fullReal then
        .error (.security ("Path escapes repo via symlink/realpath: " ++ relPath))
      else if !fs.isfile fullReal then
        .error (.notFound ("File not found: " ++ fullPath))
      else
        let ext := strLower (splitextExt norm)
        if ext != "" && !allowed.contains ext then
          .ok { repo_path := repoPath, path := norm, lines := [], total_lines := 0,
                truncated := false, is_binary := true,
                error := some ("Unsupported/binary file type: " ++ ext) }
        else
          let raw0 := fs.content fullReal
          let truncated0 := raw0.data.length > maxChars
          let raw := if truncated0 then String.mk (raw0.data.take maxChars) else raw0
          let rawLines := splitlines raw
          let totalLines := rawLines.length
          match lineStart, lineEnd with
          | .none, .none =>
            let truncated1 := truncated0 || totalLines > maxLines
            let outLines := if totalLines > maxLines then rawLines.take maxLines else rawLines
            .ok { repo_path := repoPath, path := norm, lines := numberLines 1 outLines,
                  total_lines := totalLines, truncated := truncated1, is_binary := false,
                  error := .none }
          | _, _ =>
            let ls : Int := match lineStart with
              | .none => 1
              | some v => max 1 v
            let le : Int := match lineEnd with
              | .none => Int.ofNat totalLines
              | some v => max ls v
            let chunk := ((rawLines.drop (ls - 1).toNat).take (le - ls + 1).toNat)
            .ok { repo_path := repoPath, path := norm, lines := numberLines ls chunk,
                  total_lines := totalLines, truncated := truncated0, is_binary := false,
                  error := .none }

example : normpath "a/b/../c" = "a/c" := by decide
example : normpath "../x" = "../x" := by decide
example : normpath "a/../../x" = "../x" := by decide
example : normpath "/a/b" = "/a/b" := by decide
example : normpath "" = "." := by decide
example : normpath "./a/" = "a" := by decide
example : splitextExt "dir/archive.TAR" = ".TAR" := by decide
example : splitextExt "dir/.bashrc" = "" := by decide
example : splitextExt "a." = "." := by decide
example : basename "a/b/c.py" = "c.py" := by decide
example : splitlines "ab\ncd\n" = ["ab", "cd"] := by decide
example : numberLines 1 ["x", "y"] = ["1| x", "2| y"] := by decide

/-! ## Helper lemmas -/

theorem listStarts_nil (l : List Char) : listStarts l [] = true := by
  cases l <;> rfl

theorem listStarts_append (l m : List Char) : listStarts (l ++ m) l = true := by
  induction l with
  | nil => exact listStarts_nil m
  | cons c cs ih => simp [listStarts, ih]

theorem strStarts_append (p r : String) : strStarts (p ++ r) p = true := by
  rcases p with ⟨pd⟩
  rcases r with ⟨rd⟩
  exact listStarts_append pd rd

theorem fireFold_cons {α : Type} (cond : α → Bool) (msg : α → String) (x : α)
    (xs : List α) (st : Bool × List String) :
    fireFold cond msg (x :: xs) st =
      fireFold cond msg xs
        (if cond x then (if st.1 then (false, st.2 ++ [msg x]) else st) else st) := rfl

theorem fireFold_false {α : Type} (cond : α → Bool) (msg : α → String) :
    ∀ (items : List α) (ce : List String),
      fireFold cond msg items (false, ce) = (false, ce) := by
  intro items
  induction items with
  | nil => intro ce; rfl
  | cons x xs ih =>
    intro ce
    rw [fireFold_cons]
    by_cases h : cond x = true
    · simp only [h, if_true]
      exact ih ce
    · simp only [eq_false_of_ne_true h, Bool.false_eq_true, if_false]
      exact ih ce

theorem fireFold_true {α : Type} (cond : α → Bool) (msg : α → String) :
    ∀ (items : List α) (ce : List String),
      fireFold cond msg items (true, ce) = (true, ce) ∨
        ∃ m, fireFold cond msg items (true, ce) = (false, ce ++ [m]) := by
  intro items
  induction items with
  | nil => intro ce; exact Or.inl rfl
  | cons x xs ih =>
    intro ce
    rw [fireFold_cons]
    by_cases h : cond x = true
    · simp only [h, if_true]
      right
      exact ⟨msg x, fireFold_false cond msg xs (ce ++ [msg x])⟩
    · simp only [eq_false_of_ne_true h, Bool.false_eq_true, if_false]
      exact ih ce

/-- The override block leaves an already-invalid citation verdict untouched. -/
theorem applyOverrides_false (task : String) (rf tc : List EvItem) (ce : List String) :
    applyOverrides task rf tc (false, ce) = (false, ce) := by
  unfold applyOverrides
  rw [fireFold_false]
  by_cases h : isPathTraversalTask task = true
  · simp only [h, if_true, Bool.false_eq_true, if_false]
    exact fireFold_false _ _ rf ce
  · simp only [eq_false_of_ne_true h, Bool.false_eq_true, if_false]
    exact fireFold_false _ _ rf ce

/-- On a valid citation verdict the override block either fires nothing or
fires exactly one rule, appending one diagnostic and invalidating. -/
theorem applyOverrides_true (task : String) (rf tc : List EvItem) (ce : List String) :
    applyOverrides task rf tc (true, ce) = (true, ce) ∨
      ∃ m, applyOverrides task rf tc (true, ce) = (false, ce ++ [m]) := by
  unfold applyOverrides
  rcases fireFold_true secErrCond secErrMsg (rf ++ tc) ce with h1 | ⟨m, h1⟩
  · rw [h1]
    by_cases h : isPathTraversalTask task = true
    · simp only [h, if_true]
      right
      exact ⟨traversalMsg, fireFold_false _ _ rf (ce ++ [traversalMsg])⟩
    · simp only [eq_false_of_ne_true h, Bool.false_eq_true, if_false]
      exact fireFold_true _ _ rf ce
  · rw [h1]
    right
    refine ⟨m, ?_⟩
    by_cases h : isPathTraversalTask task = true
    · simp only [h, if_true, Bool.false_eq_true, if_false]
      exact fireFold_false _ _ rf _
    · simp only [eq_false_of_ne_true h, Bool.false_eq_true, if_false]
      exact fireFold_false _ _ rf _

/-- Shape of a successful verification pass: the state is the input state with
exactly the four validation fields and the feedback replaced. -/
theorem verifyOutput_ok_shape (s s1 : AgentState) (h : verifyOutput s = .ok s1) :
    ∃ schemaRes final,
      verifyCore s.task s.repoPath s.output s.retrievedFiles s.toolCalls
        = .ok (schemaRes, final) ∧
      s1 = { s with
        schemaValid := schemaRes.1
        schemaErrors := schemaRes.2
        citationsValid := final.1
        citationErrors := final.2
        lastValidationFeedback := buildFeedback schemaRes.1 schemaRes.2 final.1 final.2 } := by
  unfold verifyOutput at h
  revert h
  cases hc : verifyCore s.task s.repoPath s.output s.retrievedFiles s.toolCalls with
  | error e => intro h; cases h
  | ok p =>
    intro h
    cases h
    exact ⟨p.1, p.2, rfl, rfl⟩

/-! ## Claim C5: idempotent re-verification -/

/-- C5: running `verify_output` twice in succession on the same run state
(same task, output, evidence and tool-call logs) yields identical values of
the four validation fields: each pass recomputes and wholesale-replaces them. -/
theorem claim_C5_verify_idempotent (s s1 : AgentState)
    (h : verifyOutput s = .ok s1) :
    ∃ s2, verifyOutput s1 = .ok s2 ∧
      s2.schemaValid = s1.schemaValid ∧ s2.schemaErrors = s1.schemaErrors ∧
      s2.citationsValid = s1.citationsValid ∧ s2.citationErrors = s1.citationErrors := by
  obtain ⟨schemaRes, final, hc, hs1⟩ := verifyOutput_ok_shape s s1 h
  subst hs1
  refine ⟨_, ?_, rfl, rfl, rfl, rfl⟩
  unfold verifyOutput
  rw [show verifyCore s.task s.repoPath s.output s.retrievedFiles s.toolCalls
        = .ok (schemaRes, final) from hc]

/-- Witness state for C5: an output with a valid shape and no citations. -/
def c5State : AgentState :=
  { initialState "inspect the code" "repo" with
      output := fallbackOutput "all good" "high" }

/-- The state `verify_output` produces from `c5State`. -/
def c5Verified : AgentState :=
  { c5State with
      schemaValid := true
      schemaErrors := []
      citationsValid := true
      citationErrors := []
      lastValidationFeedback := .none }

theorem claim_C5_witness :
    ∃ s2, verifyOutput c5Verified = .ok s2 ∧
      s2.schemaValid = c5Verified.schemaValid ∧
      s2.schemaErrors = c5Verified.schemaErrors ∧
      s2.citationsValid = c5Verified.citationsValid ∧
      s2.citationErrors = c5Verified.citationErrors :=
  claim_C5_verify_idempotent c5State c5Verified rfl

/-! ## Claim C10: the security-override block -/

/-- C10: within one `verify_output` pass the override rules append at most one
diagnostic in total (the first rule that fires invalidates citations and
suppresses all later ones), can only change `citations_valid` from valid to
invalid, leave an already-invalid verdict untouched, and never modify the
schema verdict. -/
theorem claim_C10_override_block (s s1 : AgentState) (cOk : Bool) (cErrs : List String)
    (h : verifyOutput s = .ok s1)
    (hc : validateCitations s.output s.retrievedFiles s.repoPath .none noCiteRules .none
      = .ok (cOk, cErrs)) :
    s1.schemaValid = (validateOutputSchema s.output).1 ∧
    s1.schemaErrors = (validateOutputSchema s.output).2 ∧
    (cOk = false → s1.citationsValid = false ∧ s1.citationErrors = cErrs) ∧
    (cOk = true →
      (s1.citationsValid = true ∧ s1.citationErrors = cErrs) ∨
      ∃ m, s1.citationsValid = false ∧ s1.citationErrors = cErrs ++ [m]) := by
  obtain ⟨schemaRes, final, hcore, hs1⟩ := verifyOutput_ok_shape s s1 h
  have hcore2 : verifyCore s.task s.repoPath s.output s.retrievedFiles s.toolCalls
      = .ok (validateOutputSchema s.output,
        applyOverrides s.task s.retrievedFiles s.toolCalls (cOk, cErrs)) := by
    unfold verifyCore
    rw [hc]
  rw [hcore2] at hcore
  have hpair : schemaRes = validateOutputSchema s.output ∧
      final = applyOverrides s.task s.retrievedFiles s.toolCalls (cOk, cErrs) := by
    have := hcore
    cases this
    exact ⟨rfl, rfl⟩
  obtain ⟨hsr, hfin⟩ := hpair
  subst hs1
  subst hsr
  subst hfin
  refine ⟨rfl, rfl, ?_, ?_⟩
  · intro hfalse
    subst hfalse
    rw [applyOverrides_false]
    exact ⟨rfl, rfl⟩
  · intro htrue
    subst htrue
    rcases applyOverrides_true s.task s.retrievedFiles s.toolCalls cErrs with h1 | ⟨m, h1⟩
    · left
      rw [h1]
      exact ⟨rfl, rfl⟩
    · right
      refine ⟨m, ?_⟩
      rw [h1]
      exact ⟨rfl, rfl⟩

theorem claim_C10_witness :
    c5Verified.schemaValid = (validateOutputSchema c5State.output).1 ∧
    c5Verified.schemaErrors = (validateOutputSchema c5State.output).2 ∧
    (true = false → c5Verified.citationsValid = false ∧ c5Verified.citationErrors = []) ∧
    (true = true →
      (c5Verified.citationsValid = true ∧ c5Verified.citationErrors = []) ∨
      ∃ m, c5Verified.citationsValid = false ∧ c5Verified.citationErrors = [] ++ [m]) :=
  claim_C10_override_block c5State c5Verified true [] rfl rfl

/-! ## Claim C3: the retry bound -/

/-- Invariant step: a successful verification pass leaves the attempt counters
unchanged. -/
theorem verifyOutput_ok_attempts (s s1 : AgentState) (h : verifyOutput s = .ok s1) :
    s1.llmAttempts = s.llmAttempts ∧ s1.maxLlmAttempts = s.maxLlmAttempts := by
  obtain ⟨schemaRes, final, _, hs1⟩ := verifyOutput_ok_shape s s1 h
  subst hs1
  exact ⟨rfl, rfl⟩

/-- `should_retry` never changes the attempt counters, and only returns
`retry` when the budget is not exhausted. -/
theorem shouldRetry_cases (s : AgentState) :
    ((shouldRetry s).2.llmAttempts = s.llmAttempts ∧
     (shouldRetry s).2.maxLlmAttempts = s.maxLlmAttempts) ∧
    ((shouldRetry s).1 = "end" ∨
      ((shouldRetry s).1 = "retry" ∧ s.llmAttempts < s.maxLlmAttempts)) := by
  unfold shouldRetry
  by_cases h1 : (s.schemaValid && s.citationsValid) = true
  · rw [if_pos h1]
    exact ⟨⟨rfl, rfl⟩, Or.inl rfl⟩
  · rw [if_neg h1]
    by_cases h2 : s.maxLlmAttempts ≤ s.llmAttempts
    · rw [if_pos h2]
      exact ⟨⟨rfl, rfl⟩, Or.inl rfl⟩
    · rw [if_neg h2]
      by_cases h3 : hasNonRetryableError s = true
      · rw [if_pos h3]
        exact ⟨⟨rfl, rfl⟩, Or.inl rfl⟩
      · rw [if_neg h3]
        exact ⟨⟨rfl, rfl⟩, Or.inr ⟨rfl, Nat.lt_of_not_le h2⟩⟩

/-- The retry loop terminates within the budget: starting below the attempt
budget with fuel covering it, it produces an outcome whose attempt count is at
most `max_llm_attempts` (which it never changes). -/
theorem summarizeVerifyLoop_bound (llm : AgentState → PyVal) :
    ∀ (fuel : Nat) (s : AgentState),
      s.llmAttempts < s.maxLlmAttempts →
      s.maxLlmAttempts - s.llmAttempts ≤ fuel →
      ∃ r, summarizeVerifyLoop llm fuel s = some r ∧
        r.state.llmAttempts ≤ s.maxLlmAttempts ∧
        r.state.maxLlmAttempts = s.maxLlmAttempts := by
  intro fuel
  induction fuel with
  | zero =>
    intro s hlt hfuel
    omega
  | succ fuel ih =>
    intro s hlt hfuel
    show ∃ r, (let s1 := nodeSummarize llm s
      match verifyOutput s1 with
      | .error _ => some (.crashed s1)
      | .ok s2 =>
        let r := shouldRetry s2
        if r.1 == "end" then some (.finished r.2)
        else summarizeVerifyLoop llm fuel r.2) = some r ∧ _
    have hs1a : (nodeSummarize llm s).llmAttempts = s.llmAttempts + 1 := rfl
    have hs1m : (nodeSummarize llm s).maxLlmAttempts = s.maxLlmAttempts := rfl
    cases hv : verifyOutput (nodeSummarize llm s) with
    | error e =>
      refine ⟨.crashed (nodeSummarize llm s), by simp [hv], ?_, hs1m⟩
      show (nodeSummarize llm s).llmAttempts ≤ s.maxLlmAttempts
      rw [hs1a]
      omega
    | ok s2 =>
      obtain ⟨ha2, hm2⟩ := verifyOutput_ok_attempts _ _ hv
      obtain ⟨⟨ha3, hm3⟩, hroute⟩ := shouldRetry_cases s2
      rcases hroute with hend | ⟨hretry, hlt2⟩
      · refine ⟨.finished (shouldRetry s2).2, ?_, ?_, ?_⟩
        · simp [hv, hend]
        · show (shouldRetry s2).2.llmAttempts ≤ s.maxLlmAttempts
          rw [ha3, ha2, hs1a]
          omega
        · show (shouldRetry s2).2.maxLlmAttempts = s.maxLlmAttempts
          rw [hm3, hm2, hs1m]
      · have hlt3 : (shouldRetry s2).2.llmAttempts < (shouldRetry s2).2.maxLlmAttempts := by
          rw [ha3, hm3]
          exact hlt2
        have hfuel3 : (shouldRetry s2).2.maxLlmAttempts - (shouldRetry s2).2.llmAttempts
            ≤ fuel := by
          rw [ha3, hm3, ha2, hm2, hs1a, hs1m]
          omega
        obtain ⟨r, hr, hra, hrm⟩ := ih (shouldRetry s2).2 hlt3 hfuel3
        have hmm : (shouldRetry s2).2.maxLlmAttempts = s.maxLlmAttempts := by
          rw [hm3, hm2, hs1m]
        refine ⟨r, ?_, ?_, ?_⟩
        · have hne : ((shouldRetry s2).1 == "end") = false := by
            rw [hretry]
            rfl
          simp [hv, hne, hr]
        · rw [hmm] at hra
          exact hra
        · rw [hrm, hmm]

/-- C3: `node_summarize` increments `llm_attempts` on each model invocation,
`should_retry` routes to `end` whenever `llm_attempts ≥ max_llm_attempts`, and
consequently a run starting at zero attempts reaches a terminal state with the
model invoked at most `max_llm_attempts` times (default 2). -/
theorem claim_C3_retry_bound (llm : AgentState → PyVal) (s : AgentState) (fuel : Nat)
    (h0 : s.llmAttempts = 0) (hmax : 1 ≤ s.maxLlmAttempts)
    (hfuel : s.maxLlmAttempts ≤ fuel) :
    (∀ t, (nodeSummarize llm t).llmAttempts = t.llmAttempts + 1) ∧
    (∀ t : AgentState, t.maxLlmAttempts ≤ t.llmAttempts → (shouldRetry t).1 = "end") ∧
    (∃ r, summarizeVerifyLoop llm fuel s = some r ∧
      r.state.llmAttempts ≤ s.maxLlmAttempts) := by
  refine ⟨fun t => rfl, ?_, ?_⟩
  · intro t hle
    unfold shouldRetry
    by_cases h1 : (t.schemaValid && t.citationsValid) = true
    · simp [h1]
    · simp only [eq_false_of_ne_true h1, Bool.false_eq_true, if_false]
      rw [if_pos hle]
  · obtain ⟨r, hr, hra, _⟩ := summarizeVerifyLoop_bound llm fuel s
      (by omega) (by omega)
    exact ⟨r, hr, hra⟩

theorem claim_C3_witness :
    (∀ t, (nodeSummarize (fun _ => PyVal.none) t).llmAttempts = t.llmAttempts + 1) ∧
    (∀ t : AgentState, t.maxLlmAttempts ≤ t.llmAttempts → (shouldRetry t).1 = "end") ∧
    (∃ r, summarizeVerifyLoop (fun _ => PyVal.none) 2 (initialState "check the repo" "repo")
        = some r ∧
      r.state.llmAttempts ≤ (initialState "check the repo" "repo").maxLlmAttempts) :=
  claim_C3_retry_bound (fun _ => PyVal.none) (initialState "check the repo" "repo") 2
    rfl (by decide) (by decide)

/-! ## Claim C4: non-retryable security keywords -/

/-- C4: with retry budget remaining, whenever some schema or citation error
contains one of the keywords `binary`, `symlink`, `path traversal` or
`outside repository` (case-insensitively), `should_retry` ends the run instead
of looping back to the summarize node. -/
theorem claim_C4_security_no_retry (s : AgentState)
    (hbudget : s.llmAttempts < s.maxLlmAttempts)
    (hkw : hasNonRetryableError s = true) :
    (shouldRetry s).1 = "end" := by
  unfold shouldRetry
  by_cases h1 : (s.schemaValid && s.citationsValid) = true
  · simp [h1]
  · simp only [eq_false_of_ne_true h1, Bool.false_eq_true, if_false]
    by_cases h2 : s.maxLlmAttempts ≤ s.llmAttempts
    · rw [if_pos h2]
    · rw [if_neg h2]
      simp [hkw]

/-- Witness state for C4: one failed validation whose error names a symlink,
with one retry still available. -/
def c4State : AgentState :=
  { initialState "read data" "repo" with
      llmAttempts := 1
      schemaValid := false
      citationsValid := false
      citationErrors := ["Security error for " ++ sq ++ "x" ++ sq ++ ": Symlink not allowed: x"] }

theorem claim_C4_witness : (shouldRetry c4State).1 = "end" :=
  claim_C4_security_no_retry c4State (by decide) (by decide)

/-! ## Claim C8: the empty-repository route -/

/-- C8: when not all tool calls failed, the task matches no path-traversal
pattern, and the evidence's file listing is empty, `analyze_evidence` routes
to `skip_llm` with exactly the fixed empty-repository output, and the graph
then proceeds to `finalize` — the model is not invoked. -/
theorem claim_C8_empty_repo (s : AgentState)
    (h1 : allToolsFailed s = false)
    (h2 : isPathTraversalTask s.task = false)
    (h3 : ∃ x ∈ s.retrievedFiles, x.tool = some "list_files" ∧ x.files = some [])
    (h4 : getListedFiles s.retrievedFiles = []) :
    (analyzeEvidence s).output =
      .dict [("summary", .str "Repository is empty, no files to analyze."),
        ("high_risk_areas", .list []), ("confidence", .str "high")] ∧
    (analyzeEvidence s).routeDecision = "skip_llm" ∧
    routeAfterAnalyze (analyzeEvidence s) = "finalize" := by
  clear h3
  unfold analyzeEvidence
  simp only [h1, Bool.false_eq_true, if_false, h2, h4, List.isEmpty_nil, if_true]
  simp [routeAfterAnalyze, fallbackOutput]

/-- Witness state for C8: one successful tool call and an empty file listing. -/
def c8State : AgentState :=
  { initialState "analyze this repository" "repo" with
      toolCalls := [{ emptyEvItem with resultStatus := some "success" }]
      retrievedFiles := [{ emptyEvItem with tool := some "list_files", files := some [] }] }

theorem claim_C8_witness :
    (analyzeEvidence c8State).output =
      .dict [("summary", .str "Repository is empty, no files to analyze."),
        ("high_risk_areas", .list []), ("confidence", .str "high")] ∧
    (analyzeEvidence c8State).routeDecision = "skip_llm" ∧
    routeAfterAnalyze (analyzeEvidence c8State) = "finalize" :=
  claim_C8_empty_repo c8State (by decide) (by decide)
    ⟨{ emptyEvItem with tool := some "list_files", files := some [] },
      List.mem_singleton.mpr rfl, rfl, rfl⟩ rfl

/-! ## Claim C9: `read_file` security rejections and binary markers -/

/-- C9: `read_file` fails with a security error exactly when the relative path
normalizes to a parent-directory escape, is absolute, resolves to a symlink,
or has a realpath outside the repository root; and an existing file whose
(non-empty) extension is outside the allow-list yields `is_binary = true` with
no content lines instead of a failure. -/
theorem claim_C9_read_file_security (fs : FS) (repo rel : String) (maxLines maxChars : Nat) :
    ((∃ msg, readFile fs repo rel maxLines maxChars .none .none .none
        = .error (.security msg)) ↔
      (strStarts (normpath rel) ".." = true ∨ isAbs (normpath rel) = true ∨
       fs.islink (osJoin repo (normpath rel)) = true ∨
       realpathWithin (fs.realpath repo) (fs.realpath (osJoin repo (normpath rel))) = false)) ∧
    (strStarts (normpath rel) ".." = false → isAbs (normpath rel) = false →
     fs.islink (osJoin repo (normpath rel)) = false →
     realpathWithin (fs.realpath repo) (fs.realpath (osJoin repo (normpath rel))) = true →
     fs.isfile (fs.realpath (osJoin repo (normpath rel))) = true →
     strLower (splitextExt (normpath rel)) ≠ "" →
     TEXT_EXTENSIONS.contains (strLower (splitextExt (normpath rel))) = false →
     readFile fs repo rel maxLines maxChars .none .none .none =
       .ok { repo_path := repo, path := normpath rel, lines := [], total_lines := 0,
             truncated := false, is_binary := true,
             error := some ("Unsupported/binary file type: " ++
               strLower (splitextExt (normpath rel))) }) := by
  by_cases h1 : (strStarts (normpath rel) ".." || isAbs (normpath rel)) = true
  · constructor
    · constructor
      · intro _
        rcases Bool.or_eq_true_iff.mp h1 with h | h
        · exact Or.inl h
        · exact Or.inr (Or.inl h)
      · intro _
        refine ⟨"Invalid rel_path (path traversal blocked): " ++ rel, ?_⟩
        unfold readFile
        simp only [h1, if_true]
    · intro hs hab _ _ _ _ _
      rw [hs, hab] at h1
      simp at h1
  · have h1f : (strStarts (normpath rel) ".." || isAbs (normpath rel)) = false :=
      eq_false_of_ne_true h1
    obtain ⟨h1a, h1b⟩ := Bool.or_eq_false_iff.mp h1f
    by_cases h2 : fs.islink (osJoin repo (normpath rel)) = true
    · constructor
      · constructor
        · intro _
          exact Or.inr (Or.inr (Or.inl h2))
        · intro _
          refine ⟨"Symlink not allowed: " ++ rel, ?_⟩
          unfold readFile
          simp only [h1f, Bool.false_eq_true, if_false, h2, if_true]
      · intro _ _ hl _ _ _ _
        rw [hl] at h2
        simp at h2
    · have h2f : fs.islink (osJoin repo (normpath rel)) = false := eq_false_of_ne_true h2
      by_cases h3 : realpathWithin (fs.realpath repo)
          (fs.realpath (osJoin repo (normpath rel))) = true
      · -- no security condition holds: the result is never a security error
        constructor
        · constructor
          · intro ⟨msg, hmsg⟩
            exfalso
            unfold readFile at hmsg
            simp only [h1f, Bool.false_eq_true, if_false, h2f, h3, Bool.not_true,
              if_true] at hmsg
            revert hmsg
            by_cases h4 : fs.isfile (fs.realpath (osJoin repo (normpath rel))) = true
            · simp only [h4, Bool.not_true, Bool.false_eq_true, if_false]
              intro hmsg
              split at hmsg <;> simp at hmsg
            · simp only [eq_false_of_ne_true h4, Bool.not_false, if_true]
              intro hmsg
              simp at hmsg
          · intro h
            rcases h with h | h | h | h
            · rw [h] at h1a
              cases h1a
            · rw [h] at h1b
              cases h1b
            · rw [h] at h2f
              cases h2f
            · rw [h] at h3
              cases h3
        · intro _ _ _ _ h5 h6 h7
          unfold readFile
          simp only [h1f, Bool.false_eq_true, if_false, h2f, h3, Bool.not_true, if_true,
            h5, Bool.false_eq_true, if_false]
          have h6b : (strLower (splitextExt (normpath rel)) != "") = true := by
            simp [bne, h6]
          simp only [h6b, Option.getD, h7, Bool.not_false, Bool.and_self, if_true]
      · have h3f : realpathWithin (fs.realpath repo)
            (fs.realpath (osJoin repo (normpath rel))) = false := eq_false_of_ne_true h3
        constructor
        · constructor
          · intro _
            exact Or.inr (Or.inr (Or.inr h3f))
          · intro _
            refine ⟨"Path escapes repo via symlink/realpath: " ++ rel, ?_⟩
            unfold readFile
            simp only [h1f, Bool.false_eq_true, if_false, h2f, h3f, Bool.not_false, if_true]
        · intro _ _ _ hr _ _ _
          rw [hr] at h3f
          cases h3f

/-- Witness file system for C9: no symlinks, the identity realpath, every path
an existing file with empty content. -/
def c9FS : FS :=
  { islink := fun _ => false, realpath := fun p => p,
    isfile := fun _ => true, content := fun _ => "" }

theorem claim_C9_witness :
    readFile c9FS "repo" "data/img.png" 200 50000 .none .none .none =
      .ok { repo_path := "repo", path := normpath "data/img.png", lines := [],
            total_lines := 0, truncated := false, is_binary := true,
            error := some ("Unsupported/binary file type: " ++
              strLower (splitextExt (normpath "data/img.png"))) } :=
  (claim_C9_read_file_security c9FS "repo" "data/img.png" 200 50000).2
    (by decide) (by decide) rfl (by decide) rfl (by decide) (by decide)

/-! ## Claim C1: schema exactness -/

theorem ite_singleton_eq_nil {c : Prop} [Decidable c] (x : String) :
    ((if c then [x] else []) = ([] : List String)) ↔ ¬c := by
  split <;> simp [*]

theorem keySetEqb_false_any (a b : List String) (h : keySetEqb a b = false) :
    a.any (fun k => !b.contains k) = true ∨ b.any (fun k => !a.contains k) = true := by
  by_cases ha : a.all (fun k => b.contains k) = true
  · right
    have hb : ¬ b.all (fun k => a.contains k) = true := by
      intro hb2
      unfold keySetEqb at h
      rw [ha, hb2] at h
      cases h
    rw [List.all_eq_true] at hb
    push_neg at hb
    obtain ⟨x, hx, hfx⟩ := hb
    rw [List.any_eq_true]
    refine ⟨x, hx, ?_⟩
    simp only [Bool.not_eq_true'] at hfx ⊢
    exact eq_false_of_ne_true hfx
  · left
    rw [List.all_eq_true] at ha
    push_neg at ha
    obtain ⟨x, hx, hfx⟩ := ha
    rw [List.any_eq_true]
    refine ⟨x, hx, ?_⟩
    simp only [Bool.not_eq_true'] at hfx ⊢
    exact eq_false_of_ne_true hfx

/-- A citation item contributes no schema error exactly when it satisfies the
claim-side item predicate. -/
theorem citationItemErrors_nil_iff (i : Nat) (item : PyVal) :
    citationItemErrors i item = [] ↔ specCitationItemOK item = true := by
  cases item with
  | dict kvs =>
    unfold citationItemErrors specCitationItemOK
    by_cases hk : keySetEqb (kvs.map Prod.fst) itemRequiredKeys = true
    · simp only [hk, Bool.not_true, Bool.false_eq_true, if_false, Bool.true_and]
      simp only [List.append_eq_nil, ite_singleton_eq_nil, List.filterMap_eq_nil_iff,
        ite_eq_right_iff, Bool.not_eq_true', Bool.not_eq_false, Bool.and_eq_true,
        List.all_eq_true, reduceCtorEq, imp_false, Bool.not_eq_true]
    · have hkf := eq_false_of_ne_true hk
      simp only [hkf, Bool.not_false, if_true, Bool.false_and, Bool.false_eq_true,
        iff_false]
      intro hnil
      obtain ⟨hn1, hn2⟩ := List.append_eq_nil.mp hnil
      rcases keySetEqb_false_any _ _ hkf with h | h
      · rw [if_pos h] at hn1
        cases hn1
      · rw [if_pos h] at hn2
        cases hn2
  | str v => simp [citationItemErrors, specCitationItemOK]
  | int v => simp [citationItemErrors, specCitationItemOK]
  | bool v => simp [citationItemErrors, specCitationItemOK]
  | none => simp [citationItemErrors, specCitationItemOK]
  | list v => simp [citationItemErrors, specCitationItemOK]

/-- The item loop collects no error exactly when every item is conforming. -/
theorem citationErrorsFrom_nil_iff :
    ∀ (items : List PyVal) (i : Nat),
      citationErrorsFrom i items = [] ↔ items.all specCitationItemOK = true := by
  intro items
  induction items with
  | nil => intro i; simp [citationErrorsFrom]
  | cons x xs ih =>
    intro i
    simp only [citationErrorsFrom, List.append_eq_nil, List.all_cons, Bool.and_eq_true]
    rw [citationItemErrors_nil_iff i x, ih (i + 1)]

/-- C1: `validate_output_schema` accepts an output exactly when it is a
mapping with precisely the `summary`/`high_risk_areas`/`confidence` keys, a
string summary, a low/medium/high confidence, and a list of citations each
having exactly the four primitive-typed fields with no nested list or dict. -/
theorem claim_C1_schema_exactness (output : PyVal) :
    (validateOutputSchema output).1 = specSchemaOK output := by
  cases output with
  | dict kvs =>
    unfold validateOutputSchema specSchemaOK
    by_cases hk : keySetEqb (kvs.map Prod.fst) requiredKeys = true
    · simp only [hk, Bool.not_true, Bool.false_eq_true, if_false, Bool.true_and]
      by_cases hs : pyIsStr (pyGetD kvs "summary") = true
      · simp only [hs, Bool.not_true, Bool.false_eq_true, if_false, Bool.true_and]
        by_cases hc : confOKb (pyGetD kvs "confidence") = true
        · simp only [hc, Bool.not_true, Bool.false_eq_true, if_false, Bool.true_and]
          cases hv : pyGetD kvs "high_risk_areas" with
          | list items =>
            by_cases he : citationErrorsFrom 0 items = []
            · have hall := (citationErrorsFrom_nil_iff items 0).mp he
              simp [he, hall]
            · have hall : items.all specCitationItemOK = false := by
                cases hall2 : items.all specCitationItemOK
                · rfl
                · exact absurd ((citationErrorsFrom_nil_iff items 0).mpr hall2) he
              have hne : (citationErrorsFrom 0 items).isEmpty = false := by
                cases hl : citationErrorsFrom 0 items
                · exact absurd hl he
                · rfl
              simp [hne, hall]
          | str v => rfl
          | int v => rfl
          | bool v => rfl
          | none => rfl
          | dict v => rfl
        · simp [eq_false_of_ne_true hc]
      · simp [eq_false_of_ne_true hs]
    · simp [eq_false_of_ne_true hk]
  | str v => rfl
  | int v => rfl
  | bool v => rfl
  | none => rfl
  | list v => rfl

/-! ## Claim C7: error collection -/

theorem mem_ite_singleton {c : Prop} [Decidable c] {x e : String}
    (h : e ∈ (if c then [x] else ([] : List String))) : e = x := by
  split at h
  · simpa using h
  · simp at h

/-- Every error message of item `i` opens with the `high_risk_areas[i]` tag. -/
theorem citationItemErrors_tag (i : Nat) (item : PyVal) :
    ∀ e ∈ citationItemErrors i item, strStarts e (itemTag i) = true := by
  intro e he
  cases item with
  | dict kvs =>
    unfold citationItemErrors at he
    by_cases hk : keySetEqb (kvs.map Prod.fst) itemRequiredKeys = true
    · simp only [hk, Bool.not_true, Bool.false_eq_true, if_false, List.mem_append] at he
      rcases he with (((he | he) | he) | he) | he
      · rw [mem_ite_singleton he]
        exact strStarts_append _ _
      · rw [mem_ite_singleton he]
        unfold fieldTypeMsg
        exact strStarts_append _ _
      · rw [mem_ite_singleton he]
        unfold fieldTypeMsg
        exact strStarts_append _ _
      · rw [mem_ite_singleton he]
        unfold fieldTypeMsg
        exact strStarts_append _ _
      · obtain ⟨kv, _, hf⟩ := List.mem_filterMap.mp he
        revert hf
        split
        · intro hf
          cases hf
          exact strStarts_append _ _
        · intro hf
          cases hf
    · simp only [eq_false_of_ne_true hk, Bool.not_false, if_true, List.mem_append] at he
      rcases he with he | he
      · rw [mem_ite_singleton he]
        exact strStarts_append _ _
      · rw [mem_ite_singleton he]
        exact strStarts_append _ _
  | str v =>
    rw [List.mem_singleton.mp he]
    exact strStarts_append _ _
  | int v =>
    rw [List.mem_singleton.mp he]
    exact strStarts_append _ _
  | bool v =>
    rw [List.mem_singleton.mp he]
    exact strStarts_append _ _
  | none =>
    rw [List.mem_singleton.mp he]
    exact strStarts_append _ _
  | list v =>
    rw [List.mem_singleton.mp he]
    exact strStarts_append _ _

/-- The errors of the item at position `i` all appear in the loop's output. -/
theorem citationErrorsFrom_mem :
    ∀ (items : List PyVal) (n i : Nat), i < items.length →
      ∀ e ∈ citationItemErrors (n + i) (items.getD i .none), e ∈ citationErrorsFrom n items := by
  intro items
  induction items with
  | nil =>
    intro n i h
    simp at h
  | cons x xs ih =>
    intro n i h e he
    unfold citationErrorsFrom
    rw [List.mem_append]
    cases i with
    | zero =>
      left
      simpa using he
    | succ j =>
      right
      have hj : j < xs.length := by simpa using h
      have he2 : e ∈ citationItemErrors ((n + 1) + j) (xs.getD j .none) := by
        have : n + (j + 1) = (n + 1) + j := by omega
        rw [this] at he
        simpa using he
      exact ih (n + 1) j hj e he2

/-- Under passing top-level checks, the returned error list is exactly the
item loop's output. -/
theorem validateOutputSchema_item_errors (kvs : List (String × PyVal)) (items : List PyVal)
    (hk : keySetEqb (kvs.map Prod.fst) requiredKeys = true)
    (hs : pyIsStr (pyGetD kvs "summary") = true)
    (hc : confOKb (pyGetD kvs "confidence") = true)
    (hv : pyGetD kvs "high_risk_areas" = .list items) :
    (validateOutputSchema (.dict kvs)).2 = citationErrorsFrom 0 items := by
  unfold validateOutputSchema
  simp only [hk, hs, hc, hv, Bool.not_true, Bool.false_eq_true, if_false]
  by_cases he : citationErrorsFrom 0 items = []
  · have hne : (citationErrorsFrom 0 items).isEmpty = true := by
      rw [he]
      rfl
    simp [hne, he]
  · have hne : (citationErrorsFrom 0 items).isEmpty = false := by
      cases hl : citationErrorsFrom 0 items
      · exact absurd hl he
      · rfl
    simp [hne]

/-- C7 (amended): all violations **among the citation items** are collected —
every non-conforming item contributes an error entry tagged with its index —
but a failed top-level check short-circuits: an output with a wrong-typed
summary reports exactly the summary error, whatever the confidence value. -/
theorem claim_C7_error_collection :
    (∀ (kvs : List (String × PyVal)) (items : List PyVal) (i : Nat),
      keySetEqb (kvs.map Prod.fst) requiredKeys = true →
      pyIsStr (pyGetD kvs "summary") = true →
      confOKb (pyGetD kvs "confidence") = true →
      pyGetD kvs "high_risk_areas" = .list items →
      i < items.length →
      specCitationItemOK (items.getD i .none) = false →
      ∃ e ∈ (validateOutputSchema (.dict kvs)).2, strStarts e (itemTag i) = true) ∧
    (∀ kvs : List (String × PyVal),
      keySetEqb (kvs.map Prod.fst) requiredKeys = true →
      pyIsStr (pyGetD kvs "summary") = false →
      (validateOutputSchema (.dict kvs)).2 =
        ["summary must be str, got " ++ typeName (pyGetD kvs "summary")]) := by
  constructor
  · intro kvs items i hk hs hc hv hi hbad
    have hne : citationItemErrors i (items.getD i .none) ≠ [] := by
      intro hnil
      have := (citationItemErrors_nil_iff i (items.getD i .none)).mp hnil
      rw [hbad] at this
      cases this
    obtain ⟨e, he⟩ := List.exists_mem_of_ne_nil _ hne
    have he0 : e ∈ citationItemErrors (0 + i) (items.getD i .none) := by
      simpa using he
    have hmem := citationErrorsFrom_mem items 0 i hi e he0
    rw [validateOutputSchema_item_errors kvs items hk hs hc hv]
    exact ⟨e, hmem, citationItemErrors_tag i _ e he⟩
  · intro kvs hk hs
    unfold validateOutputSchema
    simp only [hk, hs, Bool.not_true, Bool.false_eq_true, if_false, Bool.not_false,
      if_true]

/-- The C7 counterexample output: a wrong-typed summary and an invalid
confidence at once. -/
def c7Out : PyVal :=
  .dict [("summary", .int 1), ("high_risk_areas", .list []), ("confidence", .str "bogus")]

theorem claim_C7_counterexample :
    pyIsStr (pyGetD [("summary", PyVal.int 1), ("high_risk_areas", PyVal.list []),
      ("confidence", PyVal.str "bogus")] "summary") = false ∧
    confOKb (pyGetD [("summary", PyVal.int 1), ("high_risk_areas", PyVal.list []),
      ("confidence", PyVal.str "bogus")] "confidence") = false ∧
    (validateOutputSchema c7Out).2.length = 1 := by
  refine ⟨rfl, rfl, ?_⟩
  rfl

/-- The C7 witness item: one malformed citation among the items. -/
def c7BadItem : PyVal := .dict [("file_path", .int 3), ("line_start", .int 1),
  ("line_end", .int 2), ("description", .str "d")]

/-- The C7 witness output for the collection direction. -/
def c7Kvs : List (String × PyVal) :=
  [("summary", .str "s"), ("high_risk_areas", .list [c7BadItem]),
   ("confidence", .str "low")]

theorem claim_C7_witness :
    (∃ e ∈ (validateOutputSchema (.dict c7Kvs)).2, strStarts e (itemTag 0) = true) ∧
    (validateOutputSchema (.dict [("summary", PyVal.int 1),
        ("high_risk_areas", PyVal.list []), ("confidence", PyVal.str "low")])).2 =
      ["summary must be str, got " ++ typeName (pyGetD [("summary", PyVal.int 1),
        ("high_risk_areas", PyVal.list []), ("confidence", PyVal.str "low")] "summary")] :=
  ⟨claim_C7_error_collection.1 c7Kvs [c7BadItem] 0 (by decide) rfl rfl rfl
      (by decide) rfl,
   claim_C7_error_collection.2 [("summary", PyVal.int 1),
      ("high_risk_areas", PyVal.list []), ("confidence", PyVal.str "low")]
      (by decide) rfl⟩

/-! ## Claim C2: citation grounding as invoked by the Verifier -/

theorem mem_intRange_self (ls le : Int) (h : ls ≤ le) : ls ∈ intRange ls le := by
  unfold intRange
  rw [List.mem_map]
  refine ⟨0, List.mem_range.mpr ?_, ?_⟩
  · omega
  · simp

/-- One step of the citation loop, with no rules configured: it contributes no
error exactly when the citation satisfies the claim-side predicate, and a
passing citation extends the seen set by exactly its triple. -/
theorem citeCheck_spec (em : EvMap) (i : Nat) (seen : List (String × Int × Int))
    (area : PyVal) :
    ((citeCheck noCiteRules em i seen area).1 = [] ↔ specCitationOK em seen area = true) ∧
    ((citeCheck noCiteRules em i seen area).1 = [] →
      ∃ t, tripleOf area = some t ∧
        (citeCheck noCiteRules em i seen area).2 = seen ++ [t]) := by
  cases area with
  | dict kvs =>
    unfold citeCheck specCitationOK tripleOf
    cases hfp : pyGetD kvs "file_path" with
    | str fp =>
      simp only [hfp]
      cases hls : pyToInt (pyGetD kvs "line_start") with
      | none => simp [hls]
      | some ls =>
        simp only [hls]
        cases hle : pyToInt (pyGetD kvs "line_end") with
        | none => simp [hle]
        | some le =>
          simp only [hle]
          simp only [noCiteRules, Bool.or_self, Bool.false_and, Bool.false_eq_true,
            if_false]
          by_cases hdup : (fp, ls, le) ∈ seen
          · simp [hdup]
          · have hdec : decide ((fp, ls, le) ∈ seen) = false := decide_eq_false hdup
            have hcont : seen.contains (fp, ls, le) = false := by
              simp [hdup]
            simp only [hcont, hdec, Bool.false_eq_true, if_false, Bool.not_false,
              Bool.true_and]
            by_cases hbnd : le < ls
            · have : ¬ ls ≤ le := not_le_of_lt hbnd
              simp [if_pos hbnd, this]
            · have hble : ls ≤ le := le_of_not_lt hbnd
              simp only [if_neg hbnd]
              cases hlk : List.lookup fp em with
              | none => simp [hlk]
              | some lm =>
                simp only [hlk]
                by_cases hlme : lm = []
                · subst hlme
                  simp [hble]
                  exact ⟨ls, mem_intRange_self ls le hble⟩
                · have hlme2 : lm.isEmpty = false := by
                    cases lm
                    · exact absurd rfl hlme
                    · rfl
                  simp only [hlme2, Bool.false_eq_true, if_false]
                  cases hfind : (intRange ls le).find? (fun n => (List.lookup n lm).isNone)
                      with
                  | some n =>
                    have hmem := List.mem_of_find?_eq_some hfind
                    have hnone : (List.lookup n lm).isNone = true := by
                      have hp := List.find?_some hfind
                      simpa using hp
                    have hr : (intRange ls le).all
                        (fun m => (List.lookup m lm).isSome) = false := by
                      rw [List.all_eq_false]
                      refine ⟨n, hmem, ?_⟩
                      rw [Option.isNone_iff_eq_none] at hnone
                      rw [hnone]
                      simp
                    simp [hfind, hr, hble]
                  | none =>
                    have hr : (intRange ls le).all
                        (fun m => (List.lookup m lm).isSome) = true := by
                      rw [List.all_eq_true]
                      intro n hn
                      have hnn := List.find?_eq_none.mp hfind n hn
                      cases hvx : List.lookup n lm with
                      | none =>
                        rw [hvx] at hnn
                        exact absurd rfl hnn
                      | some v => rfl
                    simp [hfind, hr, hble]
    | int v => simp [hfp]
    | bool v => simp [hfp]
    | none => simp [hfp]
    | list v => simp [hfp]
    | dict v => simp [hfp]
  | str v => simp [citeCheck, specCitationOK, tripleOf]
  | int v => simp [citeCheck, specCitationOK, tripleOf]
  | bool v => simp [citeCheck, specCitationOK, tripleOf]
  | none => simp [citeCheck, specCitationOK, tripleOf]
  | list v => simp [citeCheck, specCitationOK, tripleOf]

/-- The citation loop (no rules) collects no error exactly when every
citation, in order, satisfies the claim-side predicate against the triples of
its predecessors. -/
theorem citeLoop_nil_iff (em : EvMap) :
    ∀ (areas : List PyVal) (i : Nat) (seen : List (String × Int × Int)),
      citeLoop noCiteRules em i seen areas = [] ↔
        specAllCitationsOK em seen areas = true := by
  intro areas
  induction areas with
  | nil => intro i seen; simp [citeLoop, specAllCitationsOK]
  | cons a rest ih =>
    intro i seen
    obtain ⟨hiff, hpass⟩ := citeCheck_spec em i seen a
    show (citeCheck noCiteRules em i seen a).1 ++
        citeLoop noCiteRules em (i + 1) (citeCheck noCiteRules em i seen a).2 rest = []
      ↔ (specCitationOK em seen a &&
          specAllCitationsOK em
            (match tripleOf a with
             | some t => seen ++ [t]
             | .none => seen) rest) = true
    by_cases h : (citeCheck noCiteRules em i seen a).1 = []
    · obtain ⟨t, ht, hseen⟩ := hpass h
      have hok : specCitationOK em seen a = true := hiff.mp h
      rw [h, List.nil_append, hseen, ht, hok, Bool.true_and]
      exact ih (i + 1) (seen ++ [t])
    · have hf : specCitationOK em seen a = false := by
        cases hv : specCitationOK em seen a
        · rfl
        · exact absurd (hiff.mpr hv) h
      rw [hf, Bool.false_and]
      constructor
      · intro hnil
        exact absurd (List.append_eq_nil.mp hnil).1 h
      · intro htrue
        cases htrue

theorem isEmpty_eq_of_iff {l : List String} {b : Bool} (h : l = [] ↔ b = true) :
    l.isEmpty = b := by
  cases b
  · cases hl : l with
    | nil => cases h.mp hl
    | cons x xs => rfl
  · rw [h.mpr rfl]
    rfl

/-- C2 (amended): as invoked by the Verifier (no rules, no content mode),
citation validation succeeds exactly when every citation is a well-typed
mapping whose `(file_path, line_start, line_end)` triple is not a duplicate of
an earlier citation's, has `line_start ≤ line_end`, names a file of the
evidence map, and has every line of its range among that file's retrieved
line numbers. Positivity of the line numbers is not checked separately: it
holds exactly when the matching evidence lines are positively numbered. -/
theorem claim_C2_citation_grounding (retrievedFiles : List EvItem) (repoPath : String)
    (kvs : List (String × PyVal)) (items : List PyVal)
    (h : pyGetDef kvs "high_risk_areas" (.list []) = .list items) :
    ∃ errs, validateCitations (.dict kvs) retrievedFiles repoPath .none noCiteRules .none
      = .ok (specAllCitationsOK (buildEvidenceMap retrievedFiles) [] items, errs) := by
  unfold validateCitations
  simp only [h]
  cases items with
  | nil => exact ⟨[], rfl⟩
  | cons a rest =>
    have hbase := citeLoop_nil_iff (buildEvidenceMap retrievedFiles) (a :: rest) 0 []
    have hempty :
        (citeLoop noCiteRules (buildEvidenceMap retrievedFiles) 0 [] (a :: rest)).isEmpty
          = specAllCitationsOK (buildEvidenceMap retrievedFiles) [] (a :: rest) :=
      isEmpty_eq_of_iff hbase
    refine ⟨citeLoop noCiteRules (buildEvidenceMap retrievedFiles) 0 [] (a :: rest) ++ [],
      ?_⟩
    have hcond : (!pyTruthy (PyVal.list (a :: rest))) = false := rfl
    simp only [hcond, Bool.false_eq_true, if_false, pyIter]
    rw [List.append_nil, hempty]

/-- The C2 counterexample output: a single citation with line bounds `0-0`. -/
def c2Out : PyVal :=
  .dict [("summary", .str "s"),
    ("high_risk_areas", .list [.dict [("file_path", .str "z.py"), ("line_start", .int 0),
      ("line_end", .int 0), ("description", .str "d")]]),
    ("confidence", .str "low")]

/-- The C2 counterexample evidence: file `z.py` retrieved with a line numbered 0. -/
def c2Ev : List EvItem := [readEvItem "z.py" ["0| zero line"]]

theorem claim_C2_counterexample :
    validateCitations c2Out c2Ev "repo" .none noCiteRules .none = .ok (true, []) ∧
    tripleOf (.dict [("file_path", .str "z.py"), ("line_start", .int 0),
      ("line_end", .int 0), ("description", .str "d")]) = some ("z.py", 0, 0) ∧
    ¬ (0 : Int) ≥ 1 :=
  ⟨rfl, rfl, by decide⟩

theorem claim_C2_witness :
    ∃ errs, validateCitations (.dict [("summary", PyVal.str "s"),
        ("high_risk_areas", PyVal.list [.dict [("file_path", PyVal.str "a.py"),
          ("line_start", PyVal.int 1), ("line_end", PyVal.int 2),
          ("description", PyVal.str "d")]]),
        ("confidence", PyVal.str "low")])
      [readEvItem "a.py" ["1| x", "2| y"]] "repo" .none noCiteRules .none
      = .ok (specAllCitationsOK
          (buildEvidenceMap [readEvItem "a.py" ["1| x", "2| y"]]) []
          [.dict [("file_path", PyVal.str "a.py"), ("line_start", PyVal.int 1),
            ("line_end", PyVal.int 2), ("description", PyVal.str "d")]], errs) :=
  claim_C2_citation_grounding [readEvItem "a.py" ["1| x", "2| y"]] "repo"
    [("summary", PyVal.str "s"),
     ("high_risk_areas", PyVal.list [.dict [("file_path", PyVal.str "a.py"),
       ("line_start", PyVal.int 1), ("line_end", PyVal.int 2),
       ("description", PyVal.str "d")]]),
     ("confidence", PyVal.str "low")]
    [.dict [("file_path", PyVal.str "a.py"), ("line_start", PyVal.int 1),
      ("line_end", PyVal.int 2), ("description", PyVal.str "d")]] rfl

/-! ## Claim C6: the content-aware mode -/

theorem isEmpty_false_of_mem {α : Type} {l : List α} {x : α} (h : x ∈ l) :
    l.isEmpty = false := by
  cases l with
  | nil => cases h
  | cons a t => rfl

/-- C6 (amended, matching the code): in content-aware mode with an assertion
(file `F`, line `L`, text `T`), whenever some citation's range covers `L` for
file `F` and the recorded evidence text of line `L` does **not** contain `T`
(case-insensitively), `validate_citations` reports the grounding failure; and
when the recorded text of line `L` does contain `T`, the content-aware pass
adds nothing — the result equals the default-mode validation. -/
theorem claim_C6_content_aware (retrievedFiles : List EvItem) (repoPath : String)
    (kvs : List (String × PyVal)) (items : List PyVal) (a : CiteAssertion)
    (hhra : pyGetDef kvs "high_risk_areas" (.list []) = .list items)
    (haf : a.file ≠ "") (ham : a.mustNotContainText ≠ "") (hal : a.line ≠ 0) :
    ((∃ kvs2 ∈ items.filterMap (fun it => match it with
        | PyVal.dict k => some k
        | _ => Option.none), ∃ ls le,
        pyGetD kvs2 "file_path" = .str a.file ∧
        pyToInt (pyGetD kvs2 "line_start") = some ls ∧
        pyToInt (pyGetD kvs2 "line_end") = some le ∧
        ls ≤ a.line ∧ a.line ≤ le) →
      ∀ t, lineLookup (buildEvidenceMap retrievedFiles) a.file a.line = some t →
      containsSub (strLower t) (strLower a.mustNotContainText) = false →
      ∃ errs, validateCitations (.dict kvs) retrievedFiles repoPath
          (some "content_aware") noCiteRules (some [a]) = .ok (false, errs) ∧
        contentMsg a ∈ errs) ∧
    ((∀ t, lineLookup (buildEvidenceMap retrievedFiles) a.file a.line = some t →
        containsSub (strLower t) (strLower a.mustNotContainText) = true) →
      validateCitations (.dict kvs) retrievedFiles repoPath
          (some "content_aware") noCiteRules (some [a])
        = validateCitations (.dict kvs) retrievedFiles repoPath
            .none noCiteRules .none) := by
  have hcontentMem : ∀ (t : String),
      lineLookup (buildEvidenceMap retrievedFiles) a.file a.line = some t →
      containsSub (strLower t) (strLower a.mustNotContainText) = false →
      (∃ kvs2 ∈ items.filterMap (fun it => match it with
        | PyVal.dict k => some k
        | _ => Option.none), ∃ ls le,
        pyGetD kvs2 "file_path" = .str a.file ∧
        pyToInt (pyGetD kvs2 "line_start") = some ls ∧
        pyToInt (pyGetD kvs2 "line_end") = some le ∧
        ls ≤ a.line ∧ a.line ≤ le) →
      contentMsg a ∈ contentErrors (buildEvidenceMap retrievedFiles) items [a] := by
    intro t htext hnc ⟨kvs2, hk2, ls, le, hfp, hls, hle, hcov1, hcov2⟩
    obtain ⟨area, harea, hmk⟩ := List.mem_filterMap.mp hk2
    have harea2 : area = PyVal.dict kvs2 := by
      cases area <;> simp_all
    subst harea2
    unfold contentErrors
    rw [List.mem_flatMap]
    refine ⟨a, List.mem_singleton.mpr rfl, ?_⟩
    have hguard : (a.file != "" && a.mustNotContainText != "" && a.line != 0) = true := by
      simp [bne, haf, ham, hal]
    rw [if_pos hguard]
    rw [List.mem_flatMap]
    refine ⟨PyVal.dict kvs2, harea, ?_⟩
    try simp only [hfp, hls, hle]
    have hcond : (a.file == a.file && decide (ls ≤ a.line) && decide (a.line ≤ le))
        = true := by
      simp [decide_eq_true hcov1, decide_eq_true hcov2]
    rw [if_pos hcond, htext]
    simp [hnc]
  constructor
  · intro hcov t htext hnc
    have hmem := hcontentMem t htext hnc hcov
    unfold validateCitations
    simp only [hhra]
    cases items with
    | nil =>
      rcases hcov with ⟨kvs2, hk2, _⟩
      cases hk2
    | cons a0 rest =>
      have hcond : (!pyTruthy (PyVal.list (a0 :: rest))) = false := rfl
      simp only [hcond, Bool.false_eq_true, if_false, pyIter]
      have hmode : (("content_aware" : String) == "content_aware") = true := rfl
      simp only [hmode, if_true]
      refine ⟨citeLoop noCiteRules (buildEvidenceMap retrievedFiles) 0 [] (a0 :: rest) ++
        contentErrors (buildEvidenceMap retrievedFiles) (a0 :: rest) [a], ?_, ?_⟩
      · have hne2 : (citeLoop noCiteRules (buildEvidenceMap retrievedFiles) 0 []
            (a0 :: rest) ++
            contentErrors (buildEvidenceMap retrievedFiles) (a0 :: rest) [a]).isEmpty
            = false :=
          isEmpty_false_of_mem (List.mem_append_right _ hmem)
        rw [hne2]
      · exact List.mem_append_right _ hmem
  · intro hall
    unfold validateCitations
    simp only [hhra]
    cases items with
    | nil => rfl
    | cons a0 rest =>
      have hcond : (!pyTruthy (PyVal.list (a0 :: rest))) = false := rfl
      simp only [hcond, Bool.false_eq_true, if_false, pyIter]
      have hmode : (("content_aware" : String) == "content_aware") = true := rfl
      simp only [hmode, if_true]
      have hnil : contentErrors (buildEvidenceMap retrievedFiles) (a0 :: rest) [a] = [] := by
        unfold contentErrors
        rw [List.flatMap_eq_nil_iff]
        intro x hx
        rw [List.mem_singleton.mp hx]
        by_cases hguard : (a.file != "" && a.mustNotContainText != "" && a.line != 0)
            = true
        · rw [if_pos hguard]
          rw [List.flatMap_eq_nil_iff]
          intro area harea
          cases area with
          | dict kvs2 =>
            cases hfp : pyGetD kvs2 "file_path" with
            | str fp =>
              try simp only [hfp]
              cases hls : pyToInt (pyGetD kvs2 "line_start") with
              | none => simp [hfp, hls]
              | some ls =>
                try simp only [hls]
                cases hle : pyToInt (pyGetD kvs2 "line_end") with
                | none => simp [hfp, hls, hle]
                | some le =>
                  try simp only [hle]
                  by_cases hcond2 : (fp == a.file && decide (ls ≤ a.line) &&
                      decide (a.line ≤ le)) = true
                  · rw [if_pos hcond2]
                    cases htext : lineLookup (buildEvidenceMap retrievedFiles)
                        a.file a.line with
                    | none => simp [htext]
                    | some t =>
                      try simp only [htext]
                      rw [hall t htext]
                      rfl
                  · rw [if_neg hcond2]
            | int v => simp [hfp]
            | bool v => simp [hfp]
            | none => simp [hfp]
            | list v => simp [hfp]
            | dict v => simp [hfp]
          | str v => rfl
          | int v => rfl
          | bool v => rfl
          | none => rfl
          | list v => rfl
        · rw [if_neg hguard]
      rw [hnil]

/-- The C6 counterexample output: one citation covering line 1 of `f.py`. -/
def c6Out : PyVal :=
  .dict [("summary", .str "s"),
    ("high_risk_areas", .list [.dict [("file_path", .str "f.py"), ("line_start", .int 1),
      ("line_end", .int 1), ("description", .str "d")]]),
    ("confidence", .str "low")]

/-- The C6 counterexample evidence: line 1 of `f.py` contains the text. -/
def c6Ev : List EvItem := [readEvItem "f.py" ["1| secret password here"]]

/-- The C6 counterexample assertion: line 1 of `f.py` must not contain
`PassWord`. -/
def c6Asrt : CiteAssertion :=
  { file := "f.py", mustNotContainText := "PassWord", line := 1 }

theorem claim_C6_counterexample :
    containsSub (strLower "secret password here") (strLower "PassWord") = true ∧
    validateCitations c6Out c6Ev "repo" (some "content_aware") noCiteRules (some [c6Asrt])
      = .ok (true, []) :=
  ⟨by decide, rfl⟩

/-- The C6 witness evidence: line 1 of `g.py` without the asserted text. -/
def c6wEv : List EvItem := [readEvItem "g.py" ["1| clean line"]]

/-- The C6 witness assertion. -/
def c6wAsrt : CiteAssertion :=
  { file := "g.py", mustNotContainText := "password", line := 1 }

/-- The C6 witness citation item. -/
def c6wItem : PyVal :=
  .dict [("file_path", .str "g.py"), ("line_start", .int 1), ("line_end", .int 1),
    ("description", .str "d")]

theorem claim_C6_witness :
    ∃ errs, validateCitations
        (.dict [("summary", PyVal.str "s"), ("high_risk_areas", PyVal.list [c6wItem]),
          ("confidence", PyVal.str "low")])
        c6wEv "repo" (some "content_aware") noCiteRules (some [c6wAsrt])
      = .ok (false, errs) ∧ contentMsg c6wAsrt ∈ errs :=
  (claim_C6_content_aware c6wEv "repo"
      [("summary", PyVal.str "s"), ("high_risk_areas", PyVal.list [c6wItem]),
        ("confidence", PyVal.str "low")]
      [c6wItem] c6wAsrt rfl (by decide) (by decide) (by decide)).1
    ⟨[("file_path", PyVal.str "g.py"), ("line_start", PyVal.int 1),
        ("line_end", PyVal.int 1), ("description", PyVal.str "d")],
      List.Mem.head _, 1, 1, rfl, rfl, rfl, by decide, by decide⟩
    "clean line" rfl (by decide)

end RepoCopilot
